import Mathlib

/-!
Verification development for the rainmatrix web application (src/run.py).

The Python source is shallowly embedded: machine floats are modelled as
rationals, Python datetimes as integer seconds since the Unix epoch
(with the Gregorian calendar conversions of the standard library
implemented explicitly), the SQLite cache table as a list of rows, and
the Flask request handler as a pure function from an environment
(clock, places file contents, forecast oracle) and a cache store to a
response, a new store, and an access log.
-/

/-! ## Python values and numeric coercion -/

/-- A Python value as it can appear in a decoded JSON forecast payload:
a number, a string, None, or some other non-numeric object. -/
inductive PyVal where
  | num (q : ℚ)
  | str (s : String)
  | none
  | other
deriving DecidableEq

/-- Parser for Python float literals of the simple decimal form
[sign] digits [. digits], the shape relevant to `float(x)` on strings.
Returns Option: any other string raises ValueError in Python. -/
def parseDecDigits : List Char → Option ℕ
  | [] => Option.none
  | cs => cs.foldl (fun acc c =>
      match acc with
      | Option.none => Option.none
      | Option.some n => if c.isDigit then Option.some (n * 10 + (c.toNat - 48)) else Option.none)
      (Option.some 0)

/-- Value of a fractional digit string, as a rational in [0,1). -/
def fracVal : List Char → Option ℚ
  | [] => Option.none
  | cs => (parseDecDigits cs).map (fun n => (n : ℚ) / ((10 : ℚ) ^ cs.length))

/-- Python float(string) for simple decimal literals; Option.none models ValueError. -/
def parsePyFloat (s : String) : Option ℚ :=
  let cs := s.data
  let signed : Bool × List Char :=
    match cs with
    | '-' :: rest => (true, rest)
    | '+' :: rest => (false, rest)
    | _ => (false, cs)
  let body := signed.2
  let mag : Option ℚ :=
    match body.splitOn '.' with
    | [intPart] => (parseDecDigits intPart).map (fun n => (n : ℚ))
    | [intPart, fracPart] =>
        match intPart, fracPart with
        | [], [] => Option.none
        | [], f => fracVal f
        | i, [] => (parseDecDigits i).map (fun n => (n : ℚ))
        | i, f =>
            match parseDecDigits i, fracVal f with
            | Option.some n, Option.some q => Option.some ((n : ℚ) + q)
            | _, _ => Option.none
    | _ => Option.none
  mag.map (fun q => if signed.1 then -q else q)

/-- Python float(x): numbers convert, strings parse or raise ValueError,
None and other objects raise TypeError. Except models the exception. -/
def pyFloat : PyVal → Except String ℚ
  | PyVal.num q => Except.ok q
  | PyVal.str s =>
      match parsePyFloat s with
      | Option.some q => Except.ok q
      | Option.none => Except.error "ValueError"
  | PyVal.none => Except.error "TypeError"
  | PyVal.other => Except.error "TypeError"

/-- src/run.py `_to_float(x, default=0.0)`: try float(x), on TypeError or
ValueError return the default 0.0. -/
def _to_float (x : PyVal) : ℚ :=
  match pyFloat x with
  | Except.ok q => q
  | Except.error _ => 0

/-- Python truthiness for the values above (used by `pop or 0`):
None, 0, 0.0 and the empty string are falsy. -/
def pyTruthy : PyVal → Bool
  | PyVal.num q => q ≠ 0
  | PyVal.str s => s ≠ ""
  | PyVal.none => false
  | PyVal.other => true

/-- Python int(q) for a float value: truncation toward zero. -/
def pyIntTrunc (q : ℚ) : ℤ :=
  if q < 0 then ⌈q⌉ else ⌊q⌋

/-- Python int(s) for a string: optional sign and decimal digits, else ValueError. -/
def parsePyInt (s : String) : Option ℤ :=
  match s.data with
  | '-' :: rest => (parseDecDigits rest).map (fun n => -(n : ℤ))
  | '+' :: rest => (parseDecDigits rest).map (fun n => (n : ℤ))
  | cs => (parseDecDigits cs).map (fun n => (n : ℤ))

/-- src/run.py line 968 and 788, `int(pop or 0)`: a falsy value (None, 0,
0.0, "") is replaced by 0 first; then int() converts a number by
truncation, parses an integer string, and raises TypeError or ValueError
on anything else.  Except models the uncaught exception. -/
def int_or_zero (pop : PyVal) : Except String ℤ :=
  if pyTruthy pop then
    match pop with
    | PyVal.num q => Except.ok (pyIntTrunc q)
    | PyVal.str s =>
        match parsePyInt s with
        | Option.some n => Except.ok n
        | Option.none => Except.error "ValueError"
    | PyVal.none => Except.error "TypeError"
    | PyVal.other => Except.error "TypeError"
  else
    Except.ok 0

/-! ## Local time of day and icons -/

/-- Hour-of-day and minute of a local datetime (the fields `weather_icon`,
`time_bg_color` and the matrix keys inspect), together with the day number
of its calendar date in the requested time zone (what `t.date()` compares). -/
structure Dt where
  day : ℤ
  hour : ℕ
  minute : ℕ
deriving DecidableEq

def DAY_START_HOUR : ℕ := 6
def DAY_END_HOUR : ℕ := 18
def CLEAR_MAX : ℚ := 25
def PARTLY_MAX : ℚ := 60
def LIGHT_MAX : ℚ := 5/2
def MODERATE_MAX : ℚ := 15/2
def SCALE_MAX_MM : ℚ := 7

/-- src/run.py `is_day(dt)`: DAY_START_HOUR <= dt.hour < DAY_END_HOUR. -/
def is_day (dt : Dt) : Bool :=
  decide (DAY_START_HOUR ≤ dt.hour ∧ dt.hour < DAY_END_HOUR)

def ICON_LIGHT_RAIN_DAY : String := "🌦️"
def ICON_RAIN : String := "🌧️"
def ICON_STORM : String := "⛈️"
def ICON_CLEAR_DAY : String := "☀️"
def ICON_CLEAR_NIGHT : String := "🌙"
def ICON_PARTLY_DAY : String := "🌤️"
def ICON_PARTLY_NIGHT : String := "🌙☁️"
def ICON_CLOUDY : String := "☁️"

/-- src/run.py `weather_icon(cloudcover_pct, precipitation_mm, dt)`. -/
def weather_icon (cloudcover_pct : PyVal) (precipitation_mm : PyVal) (dt : Dt) : String :=
  let cc := _to_float cloudcover_pct
  let p := _to_float precipitation_mm
  let dayflag := is_day dt
  if 0 < p then
    if p ≤ LIGHT_MAX then
      if dayflag then ICON_LIGHT_RAIN_DAY else ICON_RAIN
    else if p ≤ MODERATE_MAX then ICON_RAIN
    else ICON_STORM
  else
    if cc ≤ CLEAR_MAX then
      if dayflag then ICON_CLEAR_DAY else ICON_CLEAR_NIGHT
    else if cc ≤ PARTLY_MAX then
      if dayflag then ICON_PARTLY_DAY else ICON_PARTLY_NIGHT
    else ICON_CLOUDY

/-! ## Colors -/

/-- Value of one hexadecimal digit character. -/
def hexDigitVal (c : Char) : ℕ :=
  if c.isDigit then c.toNat - 48
  else if 'a' ≤ c ∧ c ≤ 'f' then c.toNat - 87
  else if 'A' ≤ c ∧ c ≤ 'F' then c.toNat - 55
  else 0

/-- src/run.py `_hex_to_rgb(h)`: strip "#", read three 2-digit hex groups. -/
def _hex_to_rgb (h : String) : ℤ × ℤ × ℤ :=
  match h.data with
  | '#' :: a :: b :: c :: d :: e :: f :: _ =>
      ((16 * hexDigitVal a + hexDigitVal b : ℕ),
       (16 * hexDigitVal c + hexDigitVal d : ℕ),
       (16 * hexDigitVal e + hexDigitVal f : ℕ))
  | _ => (0, 0, 0)

def SKYBLUE : String := "#87CEEB"
def VIOLET : String := "#8A2BE2"
def TC_1 : String := "#FFF2BD"
def TC_2 : String := "#F4D797"
def TC_3 : String := "#EBB58A"
def TC_4 : String := "#DA7F7D"
def TC_5 : String := "#B5728E"
def TC_6 : String := "#776E99"

/-- Uppercase hexadecimal digit character of a value below 16. -/
def hexDigitChar (n : ℕ) : Char :=
  if n < 10 then Char.ofNat (48 + n) else Char.ofNat (55 + n)

/-- src/run.py `_rgb_to_hex(r, g, b)`: "#RRGGBB" with uppercase 2-digit groups. -/
def _rgb_to_hex (r g b : ℤ) : String :=
  let two := fun (v : ℤ) =>
    [hexDigitChar (v.toNat / 16 % 16), hexDigitChar (v.toNat % 16)]
  String.mk ('#' :: (two r ++ two g ++ two b))

/-- src/run.py `_clamp01(x)`. -/
def _clamp01 (x : ℚ) : ℚ :=
  if x < 0 then 0 else if 1 < x then 1 else x

/-- src/run.py `_smoothstep(t)`: clamp, then t*t*(3 - 2*t). -/
def _smoothstep (t : ℚ) : ℚ :=
  let t := _clamp01 t
  t * t * (3 - 2 * t)

/-- Python round() on a rational value: round half to even. -/
def pyRound (q : ℚ) : ℤ :=
  let f := ⌊q⌋
  let r := q - (f : ℚ)
  if r < 1/2 then f
  else if 1/2 < r then f + 1
  else if Even f then f else f + 1

/-- src/run.py `_lerp_color(c0, c1, t)`: smoothstep the fraction, then blend
each channel with round().  Used only by `time_bg_color`. -/
def _lerp_color (c0 c1 : String) (t : ℚ) : String :=
  let t := _smoothstep t
  let rgb0 := _hex_to_rgb c0
  let rgb1 := _hex_to_rgb c1
  _rgb_to_hex
    (pyRound ((rgb0.1 : ℚ) + ((rgb1.1 : ℚ) - (rgb0.1 : ℚ)) * t))
    (pyRound ((rgb0.2.1 : ℚ) + ((rgb1.2.1 : ℚ) - (rgb0.2.1 : ℚ)) * t))
    (pyRound ((rgb0.2.2 : ℚ) + ((rgb1.2.2 : ℚ) - (rgb0.2.2 : ℚ)) * t))

/-- The RGB triple computed by src/run.py `precip_bg_color(p_mm)` before hex
formatting.  Note the interpolation fraction `t = p / SCALE_MAX_MM` is used
directly: `_smoothstep` is NOT applied on this path. -/
def precip_rgb (p_mm : PyVal) : ℤ × ℤ × ℤ :=
  let p := max 0 (_to_float p_mm)
  if SCALE_MAX_MM ≤ p then _hex_to_rgb VIOLET
  else
    let t := p / SCALE_MAX_MM
    let rgb0 := _hex_to_rgb SKYBLUE
    let rgb1 := _hex_to_rgb VIOLET
    (pyRound ((rgb0.1 : ℚ) + ((rgb1.1 : ℚ) - (rgb0.1 : ℚ)) * t),
     pyRound ((rgb0.2.1 : ℚ) + ((rgb1.2.1 : ℚ) - (rgb0.2.1 : ℚ)) * t),
     pyRound ((rgb0.2.2 : ℚ) + ((rgb1.2.2 : ℚ) - (rgb0.2.2 : ℚ)) * t))

/-- src/run.py `precip_bg_color(p_mm)`. -/
def precip_bg_color (p_mm : PyVal) : String :=
  let rgb := precip_rgb p_mm
  _rgb_to_hex rgb.1 rgb.2.1 rgb.2.2

/-- Modelled from the spec: the precipitation color as the specification
words it, with the interpolation fraction passed through the smoothstep
ease before channel blending (compare with `precip_rgb`, the code). -/
def precip_rgb_spec (p_mm : PyVal) : ℤ × ℤ × ℤ :=
  let p := max 0 (_to_float p_mm)
  if SCALE_MAX_MM ≤ p then _hex_to_rgb VIOLET
  else
    let t := _smoothstep (p / SCALE_MAX_MM)
    let rgb0 := _hex_to_rgb SKYBLUE
    let rgb1 := _hex_to_rgb VIOLET
    (pyRound ((rgb0.1 : ℚ) + ((rgb1.1 : ℚ) - (rgb0.1 : ℚ)) * t),
     pyRound ((rgb0.2.1 : ℚ) + ((rgb1.2.1 : ℚ) - (rgb0.2.1 : ℚ)) * t),
     pyRound ((rgb0.2.2 : ℚ) + ((rgb1.2.2 : ℚ) - (rgb0.2.2 : ℚ)) * t))

/-- src/run.py `time_bg_color(dt)`: piecewise segments over 11 stops,
each blended with `_lerp_color` (and hence smoothstep). -/
def time_bg_color (dt : Dt) : String :=
  let h : ℚ := (dt.hour : ℚ) + (dt.minute : ℚ) / 60
  let stops : List (ℚ × String) :=
    [(0, TC_6), (9/2, TC_5), (13/2, TC_4), (17/2, TC_3), (11, TC_2),
     (13, TC_1), (31/2, TC_2), (18, TC_3), (39/2, TC_4), (43/2, TC_5), (24, TC_6)]
  let rec go : List (ℚ × String) → String
    | (h0, c0) :: (h1, c1) :: rest =>
        if h0 ≤ h ∧ h ≤ h1 then
          if h1 = h0 then c1 else _lerp_color c0 c1 ((h - h0) / (h1 - h0))
        else go ((h1, c1) :: rest)
    | _ => TC_6
  go stops

/-! ## Probability pill color (src/run.py render_html, lines 786 to 796) -/

def POP_WHITE : String := "#FFFFFF"
def POP_GREEN : String := "#D1E7DD"
def POP_YELLOW : String := "#FFF3CD"
def POP_RED : String := "#F8D7DA"

/-- The badge color chosen from the integer probability `pop_i` in
render_html: over 80 red, over 50 yellow, at least 30 green, else white. -/
def pop_pill_bg (pop_i : ℤ) : String :=
  if 80 < pop_i then POP_RED
  else if 50 < pop_i then POP_YELLOW
  else if 30 ≤ pop_i then POP_GREEN
  else POP_WHITE

/-! ## Decimal formatting -/

/-- Decimal digit character. -/
def digitChar (n : ℕ) : Char := Char.ofNat (48 + n)

/-- Two zero-padded decimal digits (the strftime fields %m %d %H %M %S). -/
def fmt2 (n : ℕ) : List Char := [digitChar (n / 10 % 10), digitChar (n % 10)]

/-- Four zero-padded decimal digits (the strftime field %Y for years up to 9999). -/
def fmt4 (n : ℕ) : List Char := fmt2 (n / 100 % 100) ++ fmt2 (n % 100)

/-- Decimal digits of a natural number. -/
def natChars (n : ℕ) : List Char := Nat.toDigits 10 n

/-- src/run.py `precip_display(p_mm)`: "-" when the coerced value is not
positive, else the value formatted with one decimal place (f-string .1f,
which rounds half to even); a non-float value that coerces positive would
raise ValueError in the f-string, modelled by Except. -/
def precip_display_v (p_mm : PyVal) : Except String String :=
  if _to_float p_mm ≤ 0 then Except.ok "-"
  else
    match p_mm with
    | PyVal.num q =>
        let n := (pyRound (10 * q)).toNat
        Except.ok (String.mk (natChars (n / 10) ++ '.' :: [digitChar (n % 10)]))
    | _ => Except.error "ValueError"

/-! ## Gregorian calendar and UTC timestamps

A UTC instant is an integer count of seconds since 1970-01-01 00:00:00.
The conversions below implement the proleptic Gregorian calendar used by
the Python datetime library and by the SQLite datetime() function. -/

def isLeap (y : ℕ) : Bool :=
  y % 4 = 0 ∧ (y % 100 ≠ 0 ∨ y % 400 = 0)

def daysInMonth (y m : ℕ) : ℕ :=
  if m = 2 then (if isLeap y then 29 else 28)
  else if m = 4 ∨ m = 6 ∨ m = 9 ∨ m = 11 then 30
  else 31

/-- Day number (days since the epoch) of a calendar date; months January
and February count as months 10 and 11 of the previous March-based year. -/
def daysFromCivil (y m d : ℕ) : ℤ :=
  let sy : ℕ := if m ≤ 2 then y - 1 else y
  let sm : ℕ := if m ≤ 2 then m + 9 else m - 3
  let era := sy / 400
  let yoe := sy % 400
  let doe := yoe * 365 + yoe / 4 - yoe / 100 + (153 * sm + 2) / 5 + d - 1
  (era * 146097 + doe : ℤ) - 719468

/-- Seconds since the epoch of a calendar datetime. -/
def secsFromFields (y mo d h mi s : ℕ) : ℤ :=
  daysFromCivil y mo d * 86400 + h * 3600 + mi * 60 + s

/-- Year-of-era recovered from a day-of-era below 146097. -/
def yoeFromDoe (doe : ℕ) : ℕ :=
  (doe - doe / 1460 + doe / 36524 - doe / 146096) / 365

/-- Days before the March-based year yoe inside one 400-year era. -/
def doeBase (yoe : ℕ) : ℕ := 365 * yoe + yoe / 4 - yoe / 100

/-- Calendar date of a day number (days since the epoch, nonnegative). -/
def civilFromDays (days : ℕ) : ℕ × ℕ × ℕ :=
  let sdays := days + 719468
  let era := sdays / 146097
  let doe := sdays % 146097
  let yoe := yoeFromDoe doe
  let sy := era * 400 + yoe
  let sdoy := doe - doeBase yoe
  let sm := (5 * sdoy + 2) / 153
  let d := sdoy - (153 * sm + 2) / 5 + 1
  let m := if sm < 10 then sm + 3 else sm - 9
  let y := if sm < 10 then sy else sy + 1
  (y, m, d)

/-- Calendar fields (y, m, d, h, mi, s) of a nonnegative UTC instant. -/
def fieldsOfSecs (n : ℕ) : ℕ × ℕ × ℕ × ℕ × ℕ × ℕ :=
  let ymd := civilFromDays (n / 86400)
  let rem := n % 86400
  (ymd.1, ymd.2.1, ymd.2.2, rem / 3600, rem % 3600 / 60, rem % 60)

/-- strftime("%Y-%m-%d %H:%M:%S") of a UTC instant, the exact format
cache_put stores in created_at and SQLite datetime() produces. -/
def fmt_ts (t : ℤ) : List Char :=
  let f := fieldsOfSecs t.toNat
  fmt4 f.1 ++ ('-' :: (fmt2 f.2.1 ++ ('-' :: (fmt2 f.2.2.1 ++
    (' ' :: (fmt2 f.2.2.2.1 ++ (':' :: (fmt2 f.2.2.2.2.1 ++
      (':' :: fmt2 f.2.2.2.2.2)))))))))

/-- Numeric value of a digit character, Option.none if not a digit. -/
def digitVal (c : Char) : Option ℕ :=
  if c.isDigit then Option.some (c.toNat - 48) else Option.none

/-- strptime(created_at, "%Y-%m-%d %H:%M:%S") followed by conversion to
seconds since the epoch; Option.none models the ValueError that cache_get
catches (wrong shape, or calendar-invalid field values). -/
def parse_ts (s : List Char) : Option ℤ :=
  match s with
  | [y1, y2, y3, y4, c1, m1, m2, c2, d1, d2, c3, h1, h2, c4, i1, i2, c5, s1, s2] =>
      match digitVal y1, digitVal y2, digitVal y3, digitVal y4, digitVal m1, digitVal m2,
            digitVal d1, digitVal d2, digitVal h1, digitVal h2, digitVal i1, digitVal i2,
            digitVal s1, digitVal s2 with
      | Option.some a1, Option.some a2, Option.some a3, Option.some a4, Option.some b1,
        Option.some b2, Option.some e1, Option.some e2, Option.some f1, Option.some f2,
        Option.some g1, Option.some g2, Option.some j1, Option.some j2 =>
          if c1 = '-' ∧ c2 = '-' ∧ c3 = ' ' ∧ c4 = ':' ∧ c5 = ':' then
            let y := 1000 * a1 + 100 * a2 + 10 * a3 + a4
            let mo := 10 * b1 + b2
            let d := 10 * e1 + e2
            let h := 10 * f1 + f2
            let mi := 10 * g1 + g2
            let ss := 10 * j1 + j2
            if 1 ≤ y ∧ 1 ≤ mo ∧ mo ≤ 12 ∧ 1 ≤ d ∧ d ≤ daysInMonth y mo ∧
                h ≤ 23 ∧ mi ≤ 59 ∧ ss ≤ 59 then
              Option.some (secsFromFields y mo d h mi ss)
            else Option.none
          else Option.none
      | _, _, _, _, _, _, _, _, _, _, _, _, _, _ => Option.none
  | _ => Option.none

/-- Lexicographic (memcmp style) order on character lists: how SQLite
compares TEXT values in `created_at < datetime(...)`. -/
def strLt : List Char → List Char → Bool
  | _, [] => false
  | [], _ :: _ => true
  | a :: as, b :: bs =>
      if a.toNat < b.toNat then true
      else if b.toNat < a.toNat then false
      else strLt as bs

/-! ## SQLite response cache (src/run.py lines 333 to 423) -/

def CACHE_TTL_SECONDS : ℤ := 60 * 60
def CACHE_RETENTION_DAYS : ℤ := 2

/-- The six-column primary key of the rain_cache table. -/
structure CacheKey where
  query_date : String
  target_date : String
  tz : String
  country : String
  model : String
  places_sig : String
deriving DecidableEq

/-- One row of the rain_cache table. -/
structure CacheRow where
  key : CacheKey
  html : String
  created_at : List Char
deriving DecidableEq

/-- SELECT by primary key (at most one row can match since the six
columns form the primary key). -/
def cache_lookup (store : List CacheRow) (k : CacheKey) : Option CacheRow :=
  store.find? (fun e => decide (e.key = k))

/-- src/run.py `cache_get`: SELECT the row, parse created_at (a failure
is treated as expired), miss when age exceeds the TTL; the function only
reads, it never deletes. -/
def cache_get (store : List CacheRow) (k : CacheKey) (now_utc : ℤ) : Option String :=
  match cache_lookup store k with
  | Option.none => Option.none
  | Option.some row =>
      match parse_ts row.created_at with
      | Option.none => Option.none
      | Option.some created =>
          if CACHE_TTL_SECONDS < now_utc - created then Option.none
          else Option.some row.html

/-- src/run.py `cache_put`: INSERT OR REPLACE with created_at set to
utcnow formatted as "%Y-%m-%d %H:%M:%S". -/
def cache_put (store : List CacheRow) (k : CacheKey) (html : String) (now_utc : ℤ) :
    List CacheRow :=
  store.filter (fun e => decide (e.key ≠ k)) ++ [⟨k, html, fmt_ts now_utc⟩]

/-- src/run.py `cache_prune`: DELETE every row whose created_at TEXT is
lexicographically below datetime(now, -2 days); on the canonical
timestamp format this is the chronological order. -/
def cache_prune (store : List CacheRow) (now_utc : ℤ) : List CacheRow :=
  store.filter (fun e =>
    !(strLt e.created_at (fmt_ts (now_utc - CACHE_RETENTION_DAYS * 86400))))

/-! ## Forecast client, matrix pipeline, render (src/run.py lines 273 to 332,
426 to 858, 946 to 973) -/

/-- src/run.py Place dataclass. -/
structure Place where
  label : String
  query : String
  lat : ℚ
  lon : ℚ
  admin : String
deriving DecidableEq

/-- The "hourly" object of a successful provider response: parallel arrays.
The time strings arrive in ISO form and are parsed with
datetime.fromisoformat; the model carries them already parsed as Dt. -/
structure RawHourly where
  time : List Dt
  precipitation : List PyVal
  precipitation_probability : Option (List PyVal)
  cloudcover : List PyVal

/-- The dict OpenMeteoClient.hourly_forecast returns. -/
structure Forecast where
  time : List Dt
  precip : List PyVal
  pop : List PyVal
  cloud : List PyVal
deriving DecidableEq

/-- src/run.py OpenMeteoClient.hourly_forecast, response-shaping part:
`h.get("precipitation_probability") or [0] * len(h["time"])` replaces an
absent, null, or empty probability array (all falsy) with a zero array;
no array lengths are compared anywhere. -/
def hourly_forecast (h : RawHourly) : Forecast :=
  { time := h.time
    precip := h.precipitation
    pop :=
      match h.precipitation_probability with
      | Option.none => List.replicate h.time.length (PyVal.num 0)
      | Option.some l =>
          if l = [] then List.replicate h.time.length (PyVal.num 0) else l
    cloud := h.cloudcover }

/-- Python zip over four lists: truncates to the shortest input. -/
def zip4 {α β γ δ : Type} : List α → List β → List γ → List δ → List (α × β × γ × δ)
  | a :: as, b :: bs, c :: cs, d :: ds => (a, b, c, d) :: zip4 as bs cs ds
  | _, _, _, _ => []

/-- Python dict assignment on an insertion-ordered association list. -/
def alInsert {κ : Type} [DecidableEq κ] {α : Type} :
    List (κ × α) → κ → α → List (κ × α)
  | [], k, v => [(k, v)]
  | (k0, v0) :: rest, k, v =>
      if k0 = k then (k, v) :: rest else (k0, v0) :: alInsert rest k v

/-- Python dict .get on an association list. -/
def alGet {κ : Type} [DecidableEq κ] {α : Type} (m : List (κ × α)) (k : κ) : Option α :=
  (m.find? (fun e => decide (e.1 = k))).map (fun e => e.2)

/-- A cell value as stored in cell_map: (icon, raw precipitation, int pop). -/
abbrev Cell := String × PyVal × ℤ

def ICON_NODATA : String := "—"

/-- The sentinel ("—", 0.0, 0) used when a (place, hour) pair is absent. -/
def sentinelCell : Cell := (ICON_NODATA, PyVal.num 0, 0)

/-- Shared state of the sample loop: the set of hour keys already seen and
the growing unsorted time index.  Hour keys are the strftime("%H:00")
strings, represented by the hour number they are in bijection with. -/
structure LoopState where
  seen : List ℕ
  time_index : List Dt
deriving DecidableEq

/-- src/run.py lines 959 to 968: one place's sample loop.  Samples outside
the target date are skipped; a first-seen hour key extends the shared time
index; the cell tuple is built with weather_icon and int(pop or 0), whose
exception aborts the request (Except). -/
def placeCells (target : ℤ) :
    List (Dt × PyVal × PyVal × PyVal) → LoopState → List (ℕ × Cell) →
    Except String (LoopState × List (ℕ × Cell))
  | [], st, cells => Except.ok (st, cells)
  | (t, pr, pop, cc) :: rest, st, cells =>
      if t.day ≠ target then placeCells target rest st cells
      else
        let hk := t.hour
        let st' := if st.seen.contains hk then st
                   else ⟨st.seen ++ [hk], st.time_index ++ [t]⟩
        match int_or_zero pop with
        | Except.error e => Except.error e
        | Except.ok popi =>
            placeCells target rest st' (alInsert cells hk (weather_icon cc pr t, pr, popi))

/-- src/run.py lines 955 to 970: the per-place fetch loop.  Returns the
labels fetched (in order) alongside the outcome. -/
def buildPlaces (target : ℤ) (fetch : Place → RawHourly) :
    List Place → LoopState → List (String × List (ℕ × Cell)) →
    List String × Except String (LoopState × List (String × List (ℕ × Cell)))
  | [], st, cmap => ([], Except.ok (st, cmap))
  | p :: rest, st, cmap =>
      let hourly := hourly_forecast (fetch p)
      match placeCells target (zip4 hourly.time hourly.precip hourly.pop hourly.cloud) st [] with
      | Except.error e => ([p.label], Except.error e)
      | Except.ok (st2, cells) =>
          let r := buildPlaces target fetch rest st2 (alInsert cmap p.label cells)
          (p.label :: r.1, r.2)

/-- Comparison used to sort the time index (datetime order). -/
def dtLe (a b : Dt) : Prop :=
  a.day < b.day ∨ (a.day = b.day ∧
    (a.hour < b.hour ∨ (a.hour = b.hour ∧ a.minute ≤ b.minute)))

instance : DecidableRel dtLe := fun a b => by unfold dtLe; infer_instance

instance : IsTotal Dt dtLe := ⟨by intro a b; unfold dtLe; omega⟩

instance : IsTrans Dt dtLe := ⟨by intro a b c; unfold dtLe; omega⟩

/-- src/run.py line 973, time_index.sort(): a stable sort by datetime. -/
def sortTimeIndex (l : List Dt) : List Dt := List.insertionSort dtLe l

/-- src/run.py lines 779 to 781: cell_map.get(label, dict()).get(hk, sentinel). -/
def cell_for (cell_map : List (String × List (ℕ × Cell))) (label : String) (hk : ℕ) : Cell :=
  match alGet cell_map label with
  | Option.none => sentinelCell
  | Option.some cells => (alGet cells hk).getD sentinelCell

def monAbbrev (m : ℕ) : List Char :=
  match m with
  | 1 => ['J','A','N'] | 2 => ['F','E','B'] | 3 => ['M','A','R'] | 4 => ['A','P','R']
  | 5 => ['M','A','Y'] | 6 => ['J','U','N'] | 7 => ['J','U','L'] | 8 => ['A','U','G']
  | 9 => ['S','E','P'] | 10 => ['O','C','T'] | 11 => ['N','O','V'] | _ => ['D','E','C']

/-- strftime("%d-%b-%y").upper() of a day ordinal. -/
def forecastLabel (d : ℤ) : List Char :=
  let f := civilFromDays d.toNat
  fmt2 f.2.2 ++ '-' :: monAbbrev f.2.1 ++ '-' :: fmt2 (f.1 % 100)

/-- strftime("%I:00 %p") of an hour. -/
def hourLabel12 (h : ℕ) : List Char :=
  let h12 := if h % 12 = 0 then 12 else h % 12
  fmt2 h12 ++ ':' :: '0' :: '0' :: ' ' :: (if h < 12 then ['A','M'] else ['P','M'])

/-- One rendered table cell: background from precip_bg_color, value from
precip_display, badge color from pop_pill_bg applied to int(pop or 0),
which on the already-integer stored pop is the identity. -/
def renderCell (c : Cell) : Except String (List Char) :=
  match precip_display_v c.2.1 with
  | Except.error e => Except.error e
  | Except.ok val =>
      Except.ok ('<' :: (precip_bg_color c.2.1).data ++ '|' :: c.1.data ++
        '|' :: val.data ++ '|' :: (pop_pill_bg c.2.2).data ++ ['>'])

def renderRowCells (cell_map : List (String × List (ℕ × Cell))) (hk : ℕ) :
    List Place → Except String (List Char)
  | [] => Except.ok []
  | p :: rest =>
      match renderCell (cell_for cell_map p.label hk) with
      | Except.error e => Except.error e
      | Except.ok cs =>
          match renderRowCells cell_map hk rest with
          | Except.error e => Except.error e
          | Except.ok more => Except.ok (cs ++ more)

def renderRows (places : List Place) (cell_map : List (String × List (ℕ × Cell))) :
    List Dt → Except String (List Char)
  | [] => Except.ok []
  | t :: rest =>
      match renderRowCells cell_map t.hour places with
      | Except.error e => Except.error e
      | Except.ok cs =>
          match renderRows places cell_map rest with
          | Except.error e => Except.error e
          | Except.ok more =>
              Except.ok ('[' :: hourLabel12 t.hour ++ '@' :: (time_bg_color t).data ++
                '!' :: cs ++ ']' :: more)

/-- src/run.py render_html, dynamic content only: the document skeleton,
CSS, legend and script are fixed text and are elided; what remains is every
request-dependent datum in the page, serialized with brackets. -/
def render_html (target_date min_date max_date : ℤ) (tz model : String)
    (nocache : Bool) (places : List Place) (time_index : List Dt)
    (cell_map : List (String × List (ℕ × Cell))) : Except String String :=
  match renderRows places cell_map time_index with
  | Except.error e => Except.error e
  | Except.ok rows =>
      Except.ok (String.mk (forecastLabel target_date ++
        '#' :: (fmt_ts (min_date * 86400)).take 10 ++
        '#' :: (fmt_ts (max_date * 86400)).take 10 ++
        '#' :: tz.data ++ '#' :: model.data ++
        '#' :: (if nocache then ['1'] else ['0']) ++
        '#' :: (places.map (fun p => p.label)).foldl (fun a s => a ++ s.data ++ [';']) [] ++
        '#' :: rows))

/-! ## The Flask route (src/run.py lines 867 to 1001) -/

def FUTURE_DAYS_ALLOWED : ℤ := 4

/-- date.isoformat() of a day ordinal. -/
def isoDate (d : ℤ) : String := String.mk ((fmt_ts (d * 86400)).take 10)

/-- strptime(date_str, "%Y-%m-%d") as a day ordinal; Option.none models
the ValueError caught at line 890. -/
def parse_date (s : String) : Option ℤ :=
  match s.data with
  | [y1, y2, y3, y4, c1, m1, m2, c2, d1, d2] =>
      match digitVal y1, digitVal y2, digitVal y3, digitVal y4,
            digitVal m1, digitVal m2, digitVal d1, digitVal d2 with
      | Option.some a1, Option.some a2, Option.some a3, Option.some a4,
        Option.some b1, Option.some b2, Option.some e1, Option.some e2 =>
          if c1 = '-' ∧ c2 = '-' then
            let y := 1000 * a1 + 100 * a2 + 10 * a3 + a4
            let mo := 10 * b1 + b2
            let d := 10 * e1 + e2
            if 1 ≤ y ∧ 1 ≤ mo ∧ mo ≤ 12 ∧ 1 ≤ d ∧ d ≤ daysInMonth y mo then
              Option.some (daysFromCivil y mo d)
            else Option.none
          else Option.none
      | _, _, _, _, _, _, _, _ => Option.none
  | _ => Option.none

/-- Outcome of read_places_file: missing file, another exception, or a list. -/
inductive PlacesRes where
  | missing
  | failed (msg : String)
  | ok (places : List Place)

/-- The request-independent world the route runs against: the clock (today
in the requested zone as a day ordinal, and the UTC instant used for cache
timestamps), the places file outcome and signature, and the forecast
provider as an oracle returning a decoded successful response. -/
structure Env where
  today : ℤ
  now_utc : ℤ
  places : PlacesRes
  places_sig : String
  fetch : Place → RawHourly

/-- The request query parameters after defaulting. -/
structure Req where
  tz : String
  country : String
  model : String
  nocache : Bool
  date : Option String

/-- A response: 400, 500, a rendered page, or an uncaught exception. -/
inductive Resp where
  | clientError (msg : String)
  | serverError (msg : String)
  | page (html : String)
  | crash (e : String)
deriving DecidableEq

/-- What one request produced: the response, the cache store afterward,
how many cache SELECT-by-key reads ran, and which places were fetched. -/
structure HandlerResult where
  resp : Resp
  store : List CacheRow
  cache_reads : ℕ
  fetched : List String
deriving DecidableEq

/-- src/run.py lines 946 to 1001, the live build: fetch every place, build
the cells and the time index, render, and (unless nocache) store the page. -/
def live_build (fetch : Place → RawHourly) (target_date min_date max_date : ℤ)
    (tz model : String) (nocache : Bool) (places : List Place)
    (store1 : List CacheRow) (key : CacheKey) (now_utc : ℤ) (reads : ℕ) : HandlerResult :=
  let built := buildPlaces target_date fetch places ⟨[], []⟩ []
  match built.2 with
  | Except.error e => ⟨Resp.crash e, store1, reads, built.1⟩
  | Except.ok (st, cmap) =>
      match render_html target_date min_date max_date tz model nocache places
          (sortTimeIndex st.time_index) cmap with
      | Except.error e => ⟨Resp.crash e, store1, reads, built.1⟩
      | Except.ok html =>
          let store2 := if nocache then store1 else cache_put store1 key html now_utc
          ⟨Resp.page html, store2, reads, built.1⟩

/-- src/run.py `index()`: prune, validate the date window, read places,
consult the cache unless nocache, else fetch every place, build and render,
and store the result unless nocache. -/
def index (env : Env) (req : Req) (store : List CacheRow) : HandlerResult :=
  let store1 := cache_prune store env.now_utc
  let min_date := env.today
  let max_date := env.today + FUTURE_DAYS_ALLOWED
  let tgt : Except Resp ℤ :=
    match req.date with
    | Option.none => Except.ok env.today
    | Option.some s =>
        if s = "" then Except.ok env.today
        else
          match parse_date s with
          | Option.none =>
              Except.error (Resp.clientError "Invalid date format. Use YYYY-MM-DD.")
          | Option.some d =>
              if min_date ≤ d ∧ d ≤ max_date then Except.ok d
              else Except.error (Resp.clientError
                ("Date out of allowed range. Use " ++ isoDate min_date ++ " to " ++
                  isoDate max_date ++ " (tz=" ++ req.tz ++ ")."))
  match tgt with
  | Except.error r => ⟨r, store1, 0, []⟩
  | Except.ok target_date =>
      match env.places with
      | PlacesRes.missing =>
          ⟨Resp.serverError "Missing places file: places.txt", store1, 0, []⟩
      | PlacesRes.failed e =>
          ⟨Resp.serverError ("Error reading places file: " ++ e), store1, 0, []⟩
      | PlacesRes.ok places =>
          if places = [] then
            ⟨Resp.serverError "No places found in places.txt.", store1, 0, []⟩
          else
            let key : CacheKey :=
              ⟨isoDate env.today, isoDate target_date, req.tz, req.country,
                req.model, env.places_sig⟩
            let live : ℕ → HandlerResult := fun reads =>
              live_build env.fetch target_date min_date max_date req.tz req.model
                req.nocache places store1 key env.now_utc reads
            if req.nocache then live 0
            else
              match cache_get store1 key env.now_utc with
              | Option.some html => ⟨Resp.page html, store1, 1, []⟩
              | Option.none => live 1

/-! ## Auxiliary definitions for the proofs -/

/-- Number of days minus one in March-based year yoe of an era (365 when
the trailing February, belonging to calendar year yoe+1, is leap). -/
def sdoyMax (k : ℕ) : ℕ :=
  if (k + 1) % 4 = 0 ∧ ((k + 1) % 100 ≠ 0 ∨ k = 399) then 365 else 364

/-- Timestamps representable by strftime with a 4-digit year:
1970-01-01 00:00:00 up to 9999-12-31 23:59:59 UTC. -/
def validTs (t : ℤ) : Prop := 0 ≤ t ∧ t ≤ 253402300799

/-- Strict version of the time-index order. -/
def dtLt (a b : Dt) : Prop := dtLe a b ∧ a ≠ b

/-- Concrete two-place provider for the C4 witness: place A has samples at
09:00 and 07:00 of day 0 (in that order), place B overlaps at 09:00. -/
def c4_fetch (p : Place) : RawHourly :=
  if p.label = "B" then
    RawHourly.mk [⟨0, 9, 0⟩] [PyVal.num 0] (Option.some [PyVal.num 0]) [PyVal.num 0]
  else
    RawHourly.mk [⟨0, 9, 0⟩, ⟨0, 7, 0⟩] [PyVal.num 0, PyVal.num 0]
      (Option.some [PyVal.num 0, PyVal.num 0]) [PyVal.num 0, PyVal.num 0]

def c4_places : List Place :=
  [Place.mk "A" "A" 0 0 "", Place.mk "B" "B" 0 0 ""]

/-- The cell every sample of the C4 witness produces: no rain, clear sky,
daylight hours. -/
def c4_cell : Cell := (ICON_CLEAR_DAY, PyVal.num 0, 0)

def c4_cmap : List (String × List (ℕ × Cell)) :=
  [("A", [(9, c4_cell), (7, c4_cell)]), ("B", [(9, c4_cell)])]

/-! ## Claim C6: probability tiers -/

/-- Claim C6: the probability badge tier (here identified by its fixed
display color: none = white, low = green, moderate = yellow, high = red)
is: below 30 none, 30 through 50 low, 51 through 80 moderate, above 80
high, for every integer probability percentage; in particular 0 and 29 map
to none, 30 and 50 to low, 51 and 80 to moderate, 81 and 100 to high. -/
theorem probability_tier_bands (n : ℤ) :
    pop_pill_bg n =
      (if n < 30 then POP_WHITE
       else if n ≤ 50 then POP_GREEN
       else if n ≤ 80 then POP_YELLOW
       else POP_RED) ∧
    pop_pill_bg 0 = POP_WHITE ∧ pop_pill_bg 29 = POP_WHITE ∧
    pop_pill_bg 30 = POP_GREEN ∧ pop_pill_bg 50 = POP_GREEN ∧
    pop_pill_bg 51 = POP_YELLOW ∧ pop_pill_bg 80 = POP_YELLOW ∧
    pop_pill_bg 81 = POP_RED ∧ pop_pill_bg 100 = POP_RED := by
  refine ⟨?_, by decide, by decide, by decide, by decide, by decide, by decide,
    by decide, by decide⟩
  unfold pop_pill_bg
  split_ifs <;> first | rfl | omega

/-! ## Claim C5: icon selection -/

/-- Claim C5: icon selection is a pure function of precipitation, cloud
cover and local hour: with rain, up to 2.5 mm the light-rain day icon or
the night icon by the day flag (local hour in [6,18)), up to 7.5 mm the
rain icon, beyond it the storm icon; without rain, cloud cover up to 25
gives clear (day/night), up to 60 partly cloudy (day/night), and more
gives the single cloudy icon; the if/elif chain makes the classes
non-overlapping at every boundary. -/
theorem weather_icon_decision_tree (p cc : ℚ) (d : Dt) :
    weather_icon (PyVal.num cc) (PyVal.num p) d =
      (if 0 < p then
        if p ≤ 5/2 then (if is_day d then ICON_LIGHT_RAIN_DAY else ICON_RAIN)
        else if p ≤ 15/2 then ICON_RAIN
        else ICON_STORM
      else
        if cc ≤ 25 then (if is_day d then ICON_CLEAR_DAY else ICON_CLEAR_NIGHT)
        else if cc ≤ 60 then (if is_day d then ICON_PARTLY_DAY else ICON_PARTLY_NIGHT)
        else ICON_CLOUDY) ∧
    (is_day d = true ↔ 6 ≤ d.hour ∧ d.hour < 18) := by
  constructor
  · unfold weather_icon _to_float pyFloat LIGHT_MAX MODERATE_MAX CLEAR_MAX PARTLY_MAX
    rfl
  · unfold is_day DAY_START_HOUR DAY_END_HOUR
    simp

/-! ## Claim C9: lenient numeric coercion -/

/-- Claim C9 counterexample: a non-numeric (unparseable string) probability
value does not silently become 0: the coercion int(pop or 0) used for the
probability badge raises ValueError (while float-based coercions default). -/
theorem probability_coercion_raises :
    int_or_zero (PyVal.str "wet") = Except.error "ValueError" ∧
    int_or_zero (PyVal.str "wet") ≠ Except.ok 0 := by
  constructor
  · rfl
  · intro hc
    rw [show int_or_zero (PyVal.str "wet") = Except.error "ValueError" from rfl] at hc
    exact Except.noConfusion hc

/-- Claim C9 as amended: every non-numeric precipitation or cloud-cover
value is silently coerced to the default 0 by _to_float (so the icon and
the precipitation color are those of value 0, with no error of any kind,
DataShapeError included); a null (or otherwise falsy) probability likewise
defaults to 0; but a non-null, non-numeric probability value makes
int(pop or 0) raise ValueError or TypeError instead of defaulting. -/
theorem lenient_coercion_defaults :
    (∀ v e, pyFloat v = Except.error e → _to_float v = 0) ∧
    (∀ v e p d, pyFloat v = Except.error e →
      weather_icon v p d = weather_icon (PyVal.num 0) p d) ∧
    (∀ v e cc d, pyFloat v = Except.error e →
      weather_icon cc v d = weather_icon cc (PyVal.num 0) d) ∧
    (∀ v e, pyFloat v = Except.error e →
      precip_bg_color v = precip_bg_color (PyVal.num 0)) ∧
    int_or_zero PyVal.none = Except.ok 0 ∧
    int_or_zero (PyVal.str "") = Except.ok 0 ∧
    int_or_zero PyVal.other = Except.error "TypeError" := by
  have hz : ∀ v e, pyFloat v = Except.error e → _to_float v = 0 := by
    intro v e h
    unfold _to_float
    rw [h]
  refine ⟨hz, ?_, ?_, ?_, by rfl, by rfl, by rfl⟩
  · intro v e p d h
    unfold weather_icon
    rw [hz v e h]
    rfl
  · intro v e cc d h
    unfold weather_icon
    rw [hz v e h]
    rfl
  · intro v e h
    unfold precip_bg_color precip_rgb
    rw [hz v e h]
    rfl

/-- Witness for the amended Claim C9 theorem at concrete inputs. -/
theorem lenient_coercion_defaults_witness :
    _to_float PyVal.none = 0 ∧
    weather_icon PyVal.none (PyVal.num 0) ⟨0, 12, 0⟩ =
      weather_icon (PyVal.num 0) (PyVal.num 0) ⟨0, 12, 0⟩ ∧
    weather_icon (PyVal.num 0) (PyVal.str "x") ⟨0, 12, 0⟩ =
      weather_icon (PyVal.num 0) (PyVal.num 0) ⟨0, 12, 0⟩ ∧
    precip_bg_color PyVal.other = precip_bg_color (PyVal.num 0) := by
  refine ⟨lenient_coercion_defaults.1 PyVal.none "TypeError" (by rfl),
    (lenient_coercion_defaults.2.1) PyVal.none "TypeError" (PyVal.num 0) ⟨0, 12, 0⟩ (by rfl),
    (lenient_coercion_defaults.2.2.1) (PyVal.str "x") "ValueError" (PyVal.num 0) ⟨0, 12, 0⟩ ?_,
    (lenient_coercion_defaults.2.2.2.1) PyVal.other "TypeError" (by rfl)⟩
  rfl

/-! ## Claim C2: mismatched parallel arrays -/

/-- Claim C2 counterexample: a response whose time array has 2 entries but
whose precipitation array has 1 does NOT fail (there is no DataShapeError
anywhere in the code): the per-location series is silently truncated by
zip to a single sample and the build succeeds. -/
theorem array_mismatch_not_rejected :
    (RawHourly.mk [⟨0, 5, 0⟩, ⟨0, 6, 0⟩] [PyVal.num 0]
        (Option.some [PyVal.none, PyVal.none]) [PyVal.num 10, PyVal.num 20]).time.length = 2 ∧
    (RawHourly.mk [⟨0, 5, 0⟩, ⟨0, 6, 0⟩] [PyVal.num 0]
        (Option.some [PyVal.none, PyVal.none]) [PyVal.num 10, PyVal.num 20]).precipitation.length = 1 ∧
    buildPlaces 0
      (fun _ => RawHourly.mk [⟨0, 5, 0⟩, ⟨0, 6, 0⟩] [PyVal.num 0]
        (Option.some [PyVal.none, PyVal.none]) [PyVal.num 10, PyVal.num 20])
      [Place.mk "AIVR" "AIVR" 13 121 ""] ⟨[], []⟩ [] =
      (["AIVR"], Except.ok (⟨[5], [⟨0, 5, 0⟩]⟩,
        [("AIVR", [(5, (ICON_CLEAR_NIGHT, PyVal.num 0, 0))])])) := by
  refine ⟨by rfl, by rfl, ?_⟩
  rfl

/-- Claim C2 as amended: mismatched parallel arrays are not rejected; the
zip over the four arrays silently truncates the per-location series to the
shortest array.  A missing, null, or empty probability array defaults to a
zero-filled array of the length of the time array, and a null probability
element defaults to 0 via int(pop or 0). -/
theorem array_mismatch_truncates :
    (∀ {α β γ δ : Type} (a : List α) (b : List β) (c : List γ) (d : List δ),
      (zip4 a b c d).length = min (min (min a.length b.length) c.length) d.length) ∧
    (∀ h : RawHourly, h.precipitation_probability = Option.none →
      (hourly_forecast h).pop = List.replicate h.time.length (PyVal.num 0)) ∧
    (∀ h : RawHourly, h.precipitation_probability = Option.some [] →
      (hourly_forecast h).pop = List.replicate h.time.length (PyVal.num 0)) ∧
    (∀ (h : RawHourly) (l : List PyVal), h.precipitation_probability = Option.some l →
      l ≠ [] → (hourly_forecast h).pop = l) ∧
    int_or_zero PyVal.none = Except.ok 0 := by
  refine ⟨?_, ?_, ?_, ?_, by rfl⟩
  · intro α β γ δ a b c d
    induction a generalizing b c d with
    | nil => cases b <;> cases c <;> cases d <;> simp [zip4]
    | cons x xs ih =>
        cases b with
        | nil => simp [zip4]
        | cons y ys =>
            cases c with
            | nil => simp [zip4]
            | cons z zs =>
                cases d with
                | nil => simp [zip4]
                | cons w ws => simp [zip4, ih]; omega
  · intro h hp
    unfold hourly_forecast
    rw [hp]
  · intro h hp
    unfold hourly_forecast
    rw [hp]
    simp
  · intro h l hp hl
    unfold hourly_forecast
    rw [hp]
    simp [hl]

/-- Witness for the amended Claim C2 theorem at concrete inputs. -/
theorem array_mismatch_truncates_witness :
    (zip4 [0, 1] [PyVal.num 0] [true, false] ["a", "b"]).length =
      min (min (min 2 1) 2) 2 ∧
    (hourly_forecast (RawHourly.mk [⟨0, 5, 0⟩] [] Option.none [])).pop =
      List.replicate 1 (PyVal.num 0) ∧
    (hourly_forecast (RawHourly.mk [⟨0, 5, 0⟩] [] (Option.some []) [])).pop =
      List.replicate 1 (PyVal.num 0) ∧
    (hourly_forecast (RawHourly.mk [⟨0, 5, 0⟩] [] (Option.some [PyVal.num 40]) [])).pop =
      [PyVal.num 40] := by
  refine ⟨array_mismatch_truncates.1 [0, 1] [PyVal.num 0] [true, false] ["a", "b"],
    array_mismatch_truncates.2.1 (RawHourly.mk [⟨0, 5, 0⟩] [] Option.none []) (by rfl),
    array_mismatch_truncates.2.2.1 (RawHourly.mk [⟨0, 5, 0⟩] [] (Option.some []) []) (by rfl),
    array_mismatch_truncates.2.2.2.1 (RawHourly.mk [⟨0, 5, 0⟩] [] (Option.some [PyVal.num 40]) [])
      [PyVal.num 40] (by rfl) (by decide)⟩

/-! ## Claim C1: precipitation color -/

theorem pyRound_lb (q : ℚ) : ⌊q⌋ ≤ pyRound q := by
  unfold pyRound
  dsimp only
  split_ifs <;> omega

theorem pyRound_ub (q : ℚ) : pyRound q ≤ ⌊q⌋ + 1 := by
  unfold pyRound
  dsimp only
  split_ifs <;> omega

theorem pyRound_intCast (n : ℤ) : pyRound (n : ℚ) = n := by
  unfold pyRound
  dsimp only
  rw [Int.floor_intCast]
  rw [show ((n : ℚ) - (n : ℚ)) = 0 from by ring]
  norm_num

theorem pyRound_mono {x y : ℚ} (h : x ≤ y) : pyRound x ≤ pyRound y := by
  rcases lt_or_eq_of_le (Int.floor_le_floor h) with hf | hf
  · calc pyRound x ≤ ⌊x⌋ + 1 := pyRound_ub x
      _ ≤ ⌊y⌋ := by omega
      _ ≤ pyRound y := pyRound_lb y
  · unfold pyRound
    dsimp only
    rw [← hf]
    split_ifs <;> first | omega | linarith

theorem pyRound_eq_lo (q : ℚ) (n : ℤ) (h1 : (n : ℚ) ≤ q) (h2 : q < (n : ℚ) + 1/2) :
    pyRound q = n := by
  have hf : ⌊q⌋ = n := Int.floor_eq_iff.mpr ⟨h1, by linarith⟩
  unfold pyRound
  dsimp only
  rw [hf]
  rw [if_pos (show q - ((n : ℤ) : ℚ) < 1/2 from by linarith)]

theorem pyRound_eq_hi (q : ℚ) (n : ℤ) (h1 : (n : ℚ) - 1/2 < q) (h2 : q ≤ (n : ℚ)) :
    pyRound q = n := by
  rcases eq_or_lt_of_le h2 with he | hlt
  · rw [he, pyRound_intCast]
  · have hf : ⌊q⌋ = n - 1 := by
      apply Int.floor_eq_iff.mpr
      constructor
      · push_cast; linarith
      · push_cast; linarith
    unfold pyRound
    dsimp only
    rw [hf]
    rw [if_neg (show ¬(q - ((n - 1 : ℤ) : ℚ) < 1/2) from by push_cast; linarith)]
    rw [if_pos (show 1/2 < q - ((n - 1 : ℤ) : ℚ) from by push_cast; linarith)]
    omega

/-- The branch-free form of precip_rgb on a numeric input: below the 7 mm
clamp each channel is a linear blend with fraction max(0,p)/7, rounded. -/
theorem precip_rgb_num (p : ℚ) :
    precip_rgb (PyVal.num p) =
      if 7 ≤ p then (138, 43, 226)
      else (pyRound (135 + 3 * (max 0 p / 7)),
            pyRound (206 - 163 * (max 0 p / 7)),
            pyRound (235 - 9 * (max 0 p / 7))) := by
  have hsb : _hex_to_rgb SKYBLUE = ((135 : ℤ), (206 : ℤ), (235 : ℤ)) := rfl
  have hv : _hex_to_rgb VIOLET = ((138 : ℤ), (43 : ℤ), (226 : ℤ)) := rfl
  have hto : _to_float (PyVal.num p) = p := rfl
  by_cases h : 7 ≤ p
  · rw [if_pos h]
    simp only [precip_rgb, hto, hv]
    rw [if_pos (show SCALE_MAX_MM ≤ max 0 p from by
      unfold SCALE_MAX_MM; exact le_max_of_le_right h)]
  · rw [if_neg h]
    simp only [precip_rgb, hto, hsb, hv]
    rw [if_neg (show ¬(SCALE_MAX_MM ≤ max 0 p) from by
      unfold SCALE_MAX_MM
      rw [le_max_iff]
      push_neg
      constructor <;> [norm_num; linarith [not_le.mp h]])]
    unfold SCALE_MAX_MM
    refine congrArg₂ Prod.mk ?_ (congrArg₂ Prod.mk ?_ ?_)
    · apply congrArg
      push_cast
      ring
    · apply congrArg
      push_cast
      ring
    · apply congrArg
      push_cast
      ring

/-- Claim C1 counterexample: at p = 1 mm the code color is NOT the
smoothstep-eased blend the claim describes: precip_bg_color interpolates
with the raw linear fraction (green channel 183), while the eased blend
of the claim gives green channel 197.  The red channel also equals the
base color exactly, refuting the strictly-between part. -/
theorem precip_color_not_smoothstep :
    precip_rgb (PyVal.num 1) = (135, 183, 234) ∧
    precip_rgb_spec (PyVal.num 1) = (135, 197, 235) ∧
    precip_rgb (PyVal.num 1) ≠ precip_rgb_spec (PyVal.num 1) ∧
    (precip_rgb (PyVal.num 1)).1 = (_hex_to_rgb SKYBLUE).1 := by
  have hmax : max (0 : ℚ) 1 = 1 := by norm_num
  have hcode : precip_rgb (PyVal.num 1) = (135, 183, 234) := by
    rw [precip_rgb_num]
    rw [if_neg (by norm_num)]
    rw [hmax]
    refine congrArg₂ Prod.mk ?_ (congrArg₂ Prod.mk ?_ ?_)
    · rw [show (135 : ℚ) + 3 * (1 / 7) = 948/7 from by ring]
      exact pyRound_eq_lo _ 135 (by norm_num) (by norm_num)
    · rw [show (206 : ℚ) - 163 * (1 / 7) = 1279/7 from by ring]
      exact pyRound_eq_hi _ 183 (by norm_num) (by norm_num)
    · rw [show (235 : ℚ) - 9 * (1 / 7) = 1636/7 from by ring]
      exact pyRound_eq_hi _ 234 (by norm_num) (by norm_num)
  have hsmooth : _smoothstep (1/7) = 19/343 := by
    unfold _smoothstep _clamp01
    rw [if_neg (by norm_num), if_neg (by norm_num)]
    norm_num
  have hspec : precip_rgb_spec (PyVal.num 1) = (135, 197, 235) := by
    have hsb : _hex_to_rgb SKYBLUE = ((135 : ℤ), (206 : ℤ), (235 : ℤ)) := rfl
    have hv : _hex_to_rgb VIOLET = ((138 : ℤ), (43 : ℤ), (226 : ℤ)) := rfl
    have hto : _to_float (PyVal.num 1) = 1 := rfl
    simp only [precip_rgb_spec, hto, hsb, hv, hmax]
    rw [if_neg (show ¬(SCALE_MAX_MM ≤ (1 : ℚ)) from by unfold SCALE_MAX_MM; norm_num)]
    rw [show (1 : ℚ) / SCALE_MAX_MM = 1/7 from by unfold SCALE_MAX_MM; norm_num]
    rw [hsmooth]
    refine congrArg₂ Prod.mk ?_ (congrArg₂ Prod.mk ?_ ?_)
    · rw [show ((135 : ℤ) : ℚ) + (((138 : ℤ) : ℚ) - ((135 : ℤ) : ℚ)) * (19/343) = 46362/343 from by
        push_cast; ring]
      exact pyRound_eq_lo _ 135 (by norm_num) (by norm_num)
    · rw [show ((206 : ℤ) : ℚ) + (((43 : ℤ) : ℚ) - ((206 : ℤ) : ℚ)) * (19/343) = 67561/343 from by
        push_cast; ring]
      exact pyRound_eq_hi _ 197 (by norm_num) (by norm_num)
    · rw [show ((235 : ℤ) : ℚ) + (((226 : ℤ) : ℚ) - ((235 : ℤ) : ℚ)) * (19/343) = 80434/343 from by
        push_cast; ring]
      exact pyRound_eq_hi _ 235 (by norm_num) (by norm_num)
  refine ⟨hcode, hspec, ?_, ?_⟩
  · rw [hcode, hspec]
    decide
  · rw [hcode]
    rfl

/-- Claim C1 as amended: the cell background is the linear RGB blend from
the base color #87CEEB toward the alert color #8A2BE2 over [0, 7] mm with
the raw fraction p/7 (no smoothstep ease on this path; the eased blend is
used only by the time-column gradient); at p = 0 it is exactly the base
color, for p at or above 7 exactly the alert color (hard clamp); for
0 < p < 7 every channel lies weakly between the two endpoint channels
(rounding makes a channel touch an endpoint value, so strictness fails),
and as p increases every channel moves monotonically toward the alert
color (red nondecreasing toward 138, green and blue nonincreasing toward
43 and 226). -/
theorem precip_color_linear (p q : ℚ) :
    precip_rgb (PyVal.num 0) = _hex_to_rgb SKYBLUE ∧
    (7 ≤ p → precip_rgb (PyVal.num p) = _hex_to_rgb VIOLET) ∧
    (0 < p → p < 7 →
      135 ≤ (precip_rgb (PyVal.num p)).1 ∧ (precip_rgb (PyVal.num p)).1 ≤ 138 ∧
      43 ≤ (precip_rgb (PyVal.num p)).2.1 ∧ (precip_rgb (PyVal.num p)).2.1 ≤ 206 ∧
      226 ≤ (precip_rgb (PyVal.num p)).2.2 ∧ (precip_rgb (PyVal.num p)).2.2 ≤ 235) ∧
    (p ≤ q →
      (precip_rgb (PyVal.num p)).1 ≤ (precip_rgb (PyVal.num q)).1 ∧
      (precip_rgb (PyVal.num q)).2.1 ≤ (precip_rgb (PyVal.num p)).2.1 ∧
      (precip_rgb (PyVal.num q)).2.2 ≤ (precip_rgb (PyVal.num p)).2.2) := by
  have hbounds : ∀ r : ℚ, 0 ≤ max 0 r / 7 := by
    intro r
    positivity
  refine ⟨?_, ?_, ?_, ?_⟩
  · rw [precip_rgb_num]
    rw [if_neg (by norm_num)]
    rw [show max (0 : ℚ) 0 / 7 = 0 from by norm_num]
    rw [show (135 : ℚ) + 3 * 0 = ((135 : ℤ) : ℚ) from by norm_num]
    rw [show (206 : ℚ) - 163 * 0 = ((206 : ℤ) : ℚ) from by norm_num]
    rw [show (235 : ℚ) - 9 * 0 = ((235 : ℤ) : ℚ) from by norm_num]
    rw [pyRound_intCast, pyRound_intCast, pyRound_intCast]
    rfl
  · intro h
    rw [precip_rgb_num, if_pos h]
    rfl
  · intro h0 h7
    have hm : max 0 p = p := max_eq_right (le_of_lt h0)
    have ht1 : max 0 p / 7 ≤ 1 := by rw [hm]; linarith [h7]
    have ht0 : 0 ≤ max 0 p / 7 := hbounds p
    rw [precip_rgb_num, if_neg (by linarith)]
    refine ⟨?_, ?_, ?_, ?_, ?_, ?_⟩
    · have := pyRound_mono (show ((135 : ℤ) : ℚ) ≤ 135 + 3 * (max 0 p / 7) from by
        push_cast; linarith)
      rwa [pyRound_intCast] at this
    · have := pyRound_mono (show (135 : ℚ) + 3 * (max 0 p / 7) ≤ ((138 : ℤ) : ℚ) from by
        push_cast; linarith)
      rwa [pyRound_intCast] at this
    · have := pyRound_mono (show ((43 : ℤ) : ℚ) ≤ 206 - 163 * (max 0 p / 7) from by
        push_cast; linarith)
      rwa [pyRound_intCast] at this
    · have := pyRound_mono (show (206 : ℚ) - 163 * (max 0 p / 7) ≤ ((206 : ℤ) : ℚ) from by
        push_cast; linarith)
      rwa [pyRound_intCast] at this
    · have := pyRound_mono (show ((226 : ℤ) : ℚ) ≤ 235 - 9 * (max 0 p / 7) from by
        push_cast; linarith)
      rwa [pyRound_intCast] at this
    · have := pyRound_mono (show (235 : ℚ) - 9 * (max 0 p / 7) ≤ ((235 : ℤ) : ℚ) from by
        push_cast; linarith)
      rwa [pyRound_intCast] at this
  · intro hpq
    have hmm : max 0 p ≤ max 0 q := max_le_max le_rfl hpq
    have htt : max 0 p / 7 ≤ max 0 q / 7 := by
      apply div_le_div_of_nonneg_right hmm
      norm_num
    by_cases hq : 7 ≤ q
    · rw [precip_rgb_num q, if_pos hq]
      by_cases hp : 7 ≤ p
      · rw [precip_rgb_num p, if_pos hp]
        refine ⟨le_rfl, le_rfl, le_rfl⟩
      · rw [precip_rgb_num p, if_neg hp]
        have hp7 : max 0 p / 7 ≤ 1 := by
          rw [div_le_one (by norm_num : (0:ℚ) < 7)]
          rw [max_le_iff]
          exact ⟨by norm_num, le_of_lt (not_le.mp hp)⟩
        have ht0 : 0 ≤ max 0 p / 7 := hbounds p
        refine ⟨?_, ?_, ?_⟩
        · have := pyRound_mono (show (135 : ℚ) + 3 * (max 0 p / 7) ≤ ((138 : ℤ) : ℚ) from by
            push_cast; linarith)
          rwa [pyRound_intCast] at this
        · have := pyRound_mono (show ((43 : ℤ) : ℚ) ≤ 206 - 163 * (max 0 p / 7) from by
            push_cast; linarith)
          rwa [pyRound_intCast] at this
        · have := pyRound_mono (show ((226 : ℤ) : ℚ) ≤ 235 - 9 * (max 0 p / 7) from by
            push_cast; linarith)
          rwa [pyRound_intCast] at this
    · have hpn : ¬ 7 ≤ p := fun hc => hq (le_trans hc hpq)
      rw [precip_rgb_num p, if_neg hpn, precip_rgb_num q, if_neg hq]
      exact ⟨pyRound_mono (by linarith), pyRound_mono (by linarith),
        pyRound_mono (by linarith)⟩

/-- Witness for the amended Claim C1 theorem at p = 1, q = 2. -/
theorem precip_color_linear_witness :
    (7 : ℚ) ≤ 9 ∧ (0 : ℚ) < 1 ∧ (1 : ℚ) < 7 ∧ (1 : ℚ) ≤ 2 ∧
    precip_rgb (PyVal.num 9) = _hex_to_rgb VIOLET ∧
    135 ≤ (precip_rgb (PyVal.num 1)).1 ∧
    (precip_rgb (PyVal.num 2)).2.1 ≤ (precip_rgb (PyVal.num 1)).2.1 :=
  ⟨by decide, by decide, by decide, by decide,
    (precip_color_linear 9 9).2.1 (by decide),
    ((precip_color_linear 1 2).2.2.1 (by decide) (by decide)).1,
    ((precip_color_linear 1 2).2.2.2 (by decide)).2.1⟩

/-! ## Claim C3: cache get semantics -/

/-- Claim C3: cache_get returns a miss exactly when no row exists for the
key, or the stored created_at cannot be parsed, or now minus created_at
exceeds the TTL of one hour; otherwise it returns the stored payload
unchanged.  cache_get takes the store and returns only an optional
payload — it performs no deletion, and the row it reads is still a member
of the unchanged store (an expired or unparseable row persists until
cache_prune removes it). -/
theorem cache_get_miss_iff (store : List CacheRow) (k : CacheKey) (now : ℤ) :
    (cache_get store k now = Option.none ↔
      cache_lookup store k = Option.none ∨
      ∃ row, cache_lookup store k = Option.some row ∧
        (parse_ts row.created_at = Option.none ∨
         ∃ created, parse_ts row.created_at = Option.some created ∧
           CACHE_TTL_SECONDS < now - created)) ∧
    (∀ row created, cache_lookup store k = Option.some row →
      parse_ts row.created_at = Option.some created →
      now - created ≤ CACHE_TTL_SECONDS →
      cache_get store k now = Option.some row.html) ∧
    (∀ row, cache_lookup store k = Option.some row → row ∈ store) := by
  refine ⟨?_, ?_, ?_⟩
  · rcases hl : cache_lookup store k with _ | row
    · simp [cache_get, hl]
    · rcases hp : parse_ts row.created_at with _ | created
      · simp [cache_get, hl, hp]
      · by_cases hage : CACHE_TTL_SECONDS < now - created
        · simp only [cache_get, hl, hp, if_pos hage]
          constructor
          · intro _
            exact Or.inr ⟨row, rfl, Or.inr ⟨created, hp, hage⟩⟩
          · intro _
            trivial
        · simp only [cache_get, hl, hp, if_neg hage]
          constructor
          · intro hc
            exact Option.noConfusion hc
          · rintro (hc | ⟨row2, hr2, hbad⟩)
            · exact Option.noConfusion hc
            · rcases Option.some.inj hr2 with rfl
              rcases hbad with hbad | ⟨c2, hc2, hages⟩
              · rw [hp] at hbad
                exact Option.noConfusion hbad
              · rw [hp] at hc2
                rcases Option.some.inj hc2 with rfl
                exact absurd hages hage
  · intro row created hl hp hage
    simp only [cache_get, hl, hp]
    rw [if_neg (not_lt.mpr hage)]
  · intro row hl
    exact List.mem_of_find?_eq_some hl

/-- Witness for the Claim C3 theorem: a row written at UTC second
1750000000 is a hit 600 seconds later, and the row is still in the store. -/
theorem cache_get_miss_iff_witness :
    cache_lookup [(⟨⟨"2025-06-15", "2025-06-15", "Asia/Manila", "PH", "ecmwf_ifs", "1:1"⟩,
        "page", fmt_ts 1750000000⟩ : CacheRow)]
        ⟨"2025-06-15", "2025-06-15", "Asia/Manila", "PH", "ecmwf_ifs", "1:1"⟩ =
      Option.some ⟨⟨"2025-06-15", "2025-06-15", "Asia/Manila", "PH", "ecmwf_ifs", "1:1"⟩,
        "page", fmt_ts 1750000000⟩ ∧
    parse_ts (fmt_ts 1750000000) = Option.some 1750000000 ∧
    cache_get [(⟨⟨"2025-06-15", "2025-06-15", "Asia/Manila", "PH", "ecmwf_ifs", "1:1"⟩,
        "page", fmt_ts 1750000000⟩ : CacheRow)]
        ⟨"2025-06-15", "2025-06-15", "Asia/Manila", "PH", "ecmwf_ifs", "1:1"⟩ 1750000600 =
      Option.some "page" := by
  refine ⟨by decide, by decide, ?_⟩
  exact (cache_get_miss_iff _ _ 1750000600).2.1
    ⟨⟨"2025-06-15", "2025-06-15", "Asia/Manila", "PH", "ecmwf_ifs", "1:1"⟩,
      "page", fmt_ts 1750000000⟩ 1750000000 (by decide) (by decide) (by decide)

/-! ## Claim C10: nocache bypass -/

/-- Claim C10: with the cache-bypass flag set, the handler performs no
cache read (zero SELECT-by-key reads), neither creates nor replaces any
cache row — the store afterward is exactly the pruned input store — and
the response (and the set of upstream fetches) is computed fresh,
independent of whatever the cache contains. -/
theorem nocache_bypasses_cache (env : Env) (req : Req) (s1 s2 : List CacheRow)
    (h : req.nocache = true) :
    (index env req s1).resp = (index env req s2).resp ∧
    (index env req s1).cache_reads = 0 ∧
    (index env req s1).fetched = (index env req s2).fetched ∧
    (index env req s1).store = cache_prune s1 env.now_utc := by
  rcases req with ⟨tz, country, model, nocache, date⟩
  rcases env with ⟨today, now_utc, places, sig, fetch⟩
  dsimp only at h
  subst h
  unfold index live_build
  dsimp only
  rcases date with _ | s
  · rcases places with _ | msg | pl
    · refine ⟨?_, ?_, ?_, ?_⟩ <;> trivial
    · refine ⟨?_, ?_, ?_, ?_⟩ <;> trivial
    · by_cases hpl : pl = []
      · simp only [if_pos hpl]
        refine ⟨?_, ?_, ?_, ?_⟩ <;> trivial
      · simp only [if_neg hpl]
        rcases hb : (buildPlaces today fetch pl ⟨[], []⟩ []).2 with e | pr
        · simp only [hb]
          refine ⟨?_, ?_, ?_, ?_⟩ <;> trivial
        · rcases pr with ⟨st, cmap⟩
          simp only [hb]
          rcases hr : render_html today today (today + FUTURE_DAYS_ALLOWED) tz model
              true pl (sortTimeIndex st.time_index) cmap with e | html
          · simp only [hr]
            refine ⟨?_, ?_, ?_, ?_⟩ <;> trivial
          · simp only [hr]
            refine ⟨?_, ?_, ?_, ?_⟩ <;> trivial
  · by_cases hs : s = ""
    · simp only [if_pos hs]
      rcases places with _ | msg | pl
      · refine ⟨?_, ?_, ?_, ?_⟩ <;> trivial
      · refine ⟨?_, ?_, ?_, ?_⟩ <;> trivial
      · by_cases hpl : pl = []
        · simp only [if_pos hpl]
          refine ⟨?_, ?_, ?_, ?_⟩ <;> trivial
        · simp only [if_neg hpl]
          rcases hb : (buildPlaces today fetch pl ⟨[], []⟩ []).2 with e | pr
          · simp only [hb]
            refine ⟨?_, ?_, ?_, ?_⟩ <;> trivial
          · rcases pr with ⟨st, cmap⟩
            simp only [hb]
            rcases hr : render_html today today (today + FUTURE_DAYS_ALLOWED) tz model
                true pl (sortTimeIndex st.time_index) cmap with e | html
            · simp only [hr]
              refine ⟨?_, ?_, ?_, ?_⟩ <;> trivial
            · simp only [hr]
              refine ⟨?_, ?_, ?_, ?_⟩ <;> trivial
    · simp only [if_neg hs]
      rcases hp : parse_date s with _ | d
      · simp only [hp]
        refine ⟨?_, ?_, ?_, ?_⟩ <;> trivial
      · simp only [hp]
        by_cases hw : today ≤ d ∧ d ≤ today + FUTURE_DAYS_ALLOWED
        · simp only [if_pos hw]
          rcases places with _ | msg | pl
          · refine ⟨?_, ?_, ?_, ?_⟩ <;> trivial
          · refine ⟨?_, ?_, ?_, ?_⟩ <;> trivial
          · by_cases hpl : pl = []
            · simp only [if_pos hpl]
              refine ⟨?_, ?_, ?_, ?_⟩ <;> trivial
            · simp only [if_neg hpl]
              rcases hb : (buildPlaces d fetch pl ⟨[], []⟩ []).2 with e | pr
              · simp only [hb]
                refine ⟨?_, ?_, ?_, ?_⟩ <;> trivial
              · rcases pr with ⟨st, cmap⟩
                simp only [hb]
                rcases hr : render_html d today (today + FUTURE_DAYS_ALLOWED) tz model
                    true pl (sortTimeIndex st.time_index) cmap with e | html
                · simp only [hr]
                  refine ⟨?_, ?_, ?_, ?_⟩ <;> trivial
                · simp only [hr]
                  refine ⟨?_, ?_, ?_, ?_⟩ <;> trivial
        · simp only [if_neg hw]
          refine ⟨?_, ?_, ?_, ?_⟩ <;> trivial

/-- Witness for the Claim C10 theorem on a concrete environment: one place,
an empty and a one-row store give the same fresh page, and the only store
mutation is the prune. -/
theorem nocache_bypasses_cache_witness :
    (Req.mk "Asia/Manila" "PH" "ecmwf_ifs" true Option.none).nocache = true ∧
    (index
      (Env.mk 20249 1750000000
        (PlacesRes.ok [Place.mk "AIVR" "AIVR" 13 121 ""]) "1:1"
        (fun _ => RawHourly.mk [] [] Option.none []))
      (Req.mk "Asia/Manila" "PH" "ecmwf_ifs" true Option.none) []).resp =
    (index
      (Env.mk 20249 1750000000
        (PlacesRes.ok [Place.mk "AIVR" "AIVR" 13 121 ""]) "1:1"
        (fun _ => RawHourly.mk [] [] Option.none []))
      (Req.mk "Asia/Manila" "PH" "ecmwf_ifs" true Option.none)
      [⟨⟨"a", "b", "c", "d", "e", "f"⟩, "stale", fmt_ts 1749000000⟩]).resp ∧
    (index
      (Env.mk 20249 1750000000
        (PlacesRes.ok [Place.mk "AIVR" "AIVR" 13 121 ""]) "1:1"
        (fun _ => RawHourly.mk [] [] Option.none []))
      (Req.mk "Asia/Manila" "PH" "ecmwf_ifs" true Option.none) []).cache_reads = 0 := by
  refine ⟨rfl, ?_, ?_⟩
  · exact (nocache_bypasses_cache
      (Env.mk 20249 1750000000
        (PlacesRes.ok [Place.mk "AIVR" "AIVR" 13 121 ""]) "1:1"
        (fun _ => RawHourly.mk [] [] Option.none []))
      (Req.mk "Asia/Manila" "PH" "ecmwf_ifs" true Option.none) []
      [⟨⟨"a", "b", "c", "d", "e", "f"⟩, "stale", fmt_ts 1749000000⟩] rfl).1
  · exact (nocache_bypasses_cache
      (Env.mk 20249 1750000000
        (PlacesRes.ok [Place.mk "AIVR" "AIVR" 13 121 ""]) "1:1"
        (fun _ => RawHourly.mk [] [] Option.none []))
      (Req.mk "Asia/Manila" "PH" "ecmwf_ifs" true Option.none) [] [] rfl).2.1

/-! ## Claim C8: date window validation -/

theorem live_build_not_client (fetch : Place → RawHourly)
    (target_date min_date max_date : ℤ) (tz model : String) (nocache : Bool)
    (places : List Place) (store1 : List CacheRow) (key : CacheKey)
    (now_utc : ℤ) (reads : ℕ) (m : String) :
    (live_build fetch target_date min_date max_date tz model nocache places
      store1 key now_utc reads).resp ≠ Resp.clientError m := by
  unfold live_build
  dsimp only
  rcases (buildPlaces target_date fetch places ⟨[], []⟩ []).2 with e | pr
  · exact fun hc => Resp.noConfusion hc
  · rcases pr with ⟨st, cmap⟩
    dsimp only
    rcases render_html target_date min_date max_date tz model nocache places
        (sortTimeIndex st.time_index) cmap with e | html
    · exact fun hc => Resp.noConfusion hc
    · exact fun hc => Resp.noConfusion hc

theorem index_client_error_charn (env : Env) (req : Req) (store : List CacheRow) :
    ((∃ m, (index env req store).resp = Resp.clientError m) ↔
      (∃ s, req.date = Option.some s ∧ s ≠ "" ∧
        (parse_date s = Option.none ∨
         ∃ d, parse_date s = Option.some d ∧
           ¬(env.today ≤ d ∧ d ≤ env.today + FUTURE_DAYS_ALLOWED)))) ∧
    ((∃ m, (index env req store).resp = Resp.clientError m) →
      (index env req store).fetched = [] ∧ (index env req store).cache_reads = 0 ∧
      (index env req store).store = cache_prune store env.now_utc) := by
  rcases req with ⟨tz, country, model, nocache, date⟩
  rcases env with ⟨today, now_utc, places, sig, fetch⟩
  dsimp only
  have hlive : ∀ (t mi ma : ℤ) (key : CacheKey) (pl : List Place) (reads : ℕ) (m : String),
      (live_build fetch t mi ma tz model nocache pl (cache_prune store now_utc) key
        now_utc reads).resp ≠ Resp.clientError m := by
    intro t mi ma key pl reads m
    exact live_build_not_client fetch t mi ma tz model nocache pl
      (cache_prune store now_utc) key now_utc reads m
  have haccept : ∀ (t : ℤ),
      ∀ m, (match places with
        | PlacesRes.missing =>
            (⟨Resp.serverError "Missing places file: places.txt",
              cache_prune store now_utc, 0, []⟩ : HandlerResult)
        | PlacesRes.failed e =>
            ⟨Resp.serverError ("Error reading places file: " ++ e),
              cache_prune store now_utc, 0, []⟩
        | PlacesRes.ok pl =>
            if pl = [] then
              ⟨Resp.serverError "No places found in places.txt.",
                cache_prune store now_utc, 0, []⟩
            else
              let key : CacheKey :=
                ⟨isoDate today, isoDate t, tz, country, model, sig⟩
              let live : ℕ → HandlerResult := fun reads =>
                live_build fetch t today (today + FUTURE_DAYS_ALLOWED) tz model
                  nocache pl (cache_prune store now_utc) key now_utc reads
              if nocache then live 0
              else
                match cache_get (cache_prune store now_utc) key now_utc with
                | Option.some html =>
                    ⟨Resp.page html, cache_prune store now_utc, 1, []⟩
                | Option.none => live 1).resp ≠ Resp.clientError m := by
    intro t m
    rcases places with _ | msg | pl
    · exact fun hc => Resp.noConfusion hc
    · exact fun hc => Resp.noConfusion hc
    · by_cases hpl : pl = []
      · simp only [if_pos hpl]
        exact fun hc => Resp.noConfusion hc
      · simp only [if_neg hpl]
        rcases nocache with _ | _
        · rw [if_neg Bool.false_ne_true]
          rcases cache_get (cache_prune store now_utc)
              ⟨isoDate today, isoDate t, tz, country, model, sig⟩ now_utc with _ | html
          · exact hlive t today (today + FUTURE_DAYS_ALLOWED) _ pl 1 m
          · exact fun hc => Resp.noConfusion hc
        · rw [if_pos rfl]
          exact hlive t today (today + FUTURE_DAYS_ALLOWED) _ pl 0 m
  unfold index
  dsimp only
  rcases date with _ | s
  · refine ⟨⟨fun ⟨m, hm⟩ => absurd hm (haccept today m), ?_⟩,
      fun ⟨m, hm⟩ => absurd hm (haccept today m)⟩
    rintro ⟨s, hsome, _⟩
    exact Option.noConfusion hsome
  · by_cases hs : s = ""
    · simp only [if_pos hs]
      refine ⟨⟨fun ⟨m, hm⟩ => absurd hm (haccept today m), ?_⟩,
        fun ⟨m, hm⟩ => absurd hm (haccept today m)⟩
      rintro ⟨s2, hsome, hne, _⟩
      cases Option.some.inj hsome
      exact (hne hs).elim
    · simp only [if_neg hs]
      rcases hp : parse_date s with _ | d
      · simp only [hp]
        refine ⟨⟨fun _ => ⟨s, rfl, hs, Or.inl hp⟩, fun _ => ⟨_, rfl⟩⟩,
          fun _ => ⟨?_, ?_, ?_⟩⟩ <;> trivial
      · simp only [hp]
        by_cases hw : today ≤ d ∧ d ≤ today + FUTURE_DAYS_ALLOWED
        · simp only [if_pos hw]
          refine ⟨⟨fun ⟨m, hm⟩ => absurd hm (haccept d m), ?_⟩,
            fun ⟨m, hm⟩ => absurd hm (haccept d m)⟩
          rintro ⟨s2, hsome, hne, hbad | ⟨d2, hp2, hw2⟩⟩
          · cases Option.some.inj hsome
            rw [hp] at hbad
            exact Option.noConfusion hbad
          · cases Option.some.inj hsome
            rw [hp] at hp2
            cases Option.some.inj hp2
            exact (hw2 hw).elim
        · simp only [if_neg hw]
          refine ⟨⟨fun _ => ⟨s, rfl, hs, Or.inr ⟨d, hp, hw⟩⟩, fun _ => ⟨_, rfl⟩⟩,
            fun _ => ⟨?_, ?_, ?_⟩⟩ <;> trivial

/-- Claim C8: a request with a date parameter is rejected with a
client-error (400) response exactly when the date is unparseable or lies
outside the closed window [today, today + 4] in the requested timezone;
on rejection nothing upstream is fetched, no cache read is attempted, and
no cache row is written — the store afterward is just the input store
after the unconditional maintenance prune.  With today = 2025-06-10
(ordinal 20249), the dates 2025-06-10 and 2025-06-14 are accepted while
2025-06-09 and 2025-06-15 are rejected. -/
theorem date_window_claim (env : Env) (req : Req) (store : List CacheRow) :
    (∀ s, req.date = Option.some s → s ≠ "" →
      ((∃ m, (index env req store).resp = Resp.clientError m) ↔
        (parse_date s = Option.none ∨
         ∃ d, parse_date s = Option.some d ∧
           ¬(env.today ≤ d ∧ d ≤ env.today + FUTURE_DAYS_ALLOWED)))) ∧
    ((∃ m, (index env req store).resp = Resp.clientError m) →
      (index env req store).fetched = [] ∧ (index env req store).cache_reads = 0 ∧
      (index env req store).store = cache_prune store env.now_utc) ∧
    (env.today = 20249 → req.date = Option.some "2025-06-10" →
      ∀ m, (index env req store).resp ≠ Resp.clientError m) ∧
    (env.today = 20249 → req.date = Option.some "2025-06-14" →
      ∀ m, (index env req store).resp ≠ Resp.clientError m) ∧
    (env.today = 20249 → req.date = Option.some "2025-06-09" →
      ∃ m, (index env req store).resp = Resp.clientError m) ∧
    (env.today = 20249 → req.date = Option.some "2025-06-15" →
      ∃ m, (index env req store).resp = Resp.clientError m) ∧
    daysFromCivil 2025 6 10 = 20249 ∧ daysFromCivil 2025 6 14 = 20253 ∧
    daysFromCivil 2025 6 9 = 20248 ∧ daysFromCivil 2025 6 15 = 20254 := by
  obtain ⟨hiff, hcons⟩ := index_client_error_charn env req store
  refine ⟨?_, hcons, ?_, ?_, ?_, ?_, by decide, by decide, by decide, by decide⟩
  · intro s hds hne
    rw [hiff]
    constructor
    · rintro ⟨s2, hsome, hne2, hbad⟩
      rw [hds] at hsome
      cases Option.some.inj hsome
      exact hbad
    · intro hbad
      exact ⟨s, hds, hne, hbad⟩
  · intro ht hds m hc
    obtain ⟨s2, hsome, hne2, hbad⟩ := hiff.mp ⟨m, hc⟩
    rw [hds] at hsome
    cases Option.some.inj hsome
    rcases hbad with hbad | ⟨d2, hp2, hw2⟩
    · rw [show parse_date "2025-06-10" = Option.some 20249 from by decide] at hbad
      exact Option.noConfusion hbad
    · rw [show parse_date "2025-06-10" = Option.some 20249 from by decide] at hp2
      cases Option.some.inj hp2
      rw [ht] at hw2
      exact hw2 (by decide)
  · intro ht hds m hc
    obtain ⟨s2, hsome, hne2, hbad⟩ := hiff.mp ⟨m, hc⟩
    rw [hds] at hsome
    cases Option.some.inj hsome
    rcases hbad with hbad | ⟨d2, hp2, hw2⟩
    · rw [show parse_date "2025-06-14" = Option.some 20253 from by decide] at hbad
      exact Option.noConfusion hbad
    · rw [show parse_date "2025-06-14" = Option.some 20253 from by decide] at hp2
      cases Option.some.inj hp2
      rw [ht] at hw2
      exact hw2 (by decide)
  · intro ht hds
    exact hiff.mpr ⟨"2025-06-09", hds, by decide,
      Or.inr ⟨20248, by decide, by rw [ht]; decide⟩⟩
  · intro ht hds
    exact hiff.mpr ⟨"2025-06-15", hds, by decide,
      Or.inr ⟨20254, by decide, by rw [ht]; decide⟩⟩

/-- Witness for the Claim C8 theorem: a concrete request for 2025-06-09
with today 2025-06-10 is rejected with a client error. -/
theorem date_window_claim_witness :
    (Env.mk 20249 1750000000 (PlacesRes.ok []) "1:1"
      (fun _ => RawHourly.mk [] [] Option.none [])).today = 20249 ∧
    (Req.mk "Asia/Manila" "PH" "ecmwf_ifs" false
      (Option.some "2025-06-09")).date = Option.some "2025-06-09" ∧
    ∃ m, (index
      (Env.mk 20249 1750000000 (PlacesRes.ok []) "1:1"
        (fun _ => RawHourly.mk [] [] Option.none []))
      (Req.mk "Asia/Manila" "PH" "ecmwf_ifs" false (Option.some "2025-06-09"))
      []).resp = Resp.clientError m :=
  ⟨rfl, rfl,
    (date_window_claim
      (Env.mk 20249 1750000000 (PlacesRes.ok []) "1:1"
        (fun _ => RawHourly.mk [] [] Option.none []))
      (Req.mk "Asia/Manila" "PH" "ecmwf_ifs" false (Option.some "2025-06-09"))
      []).2.2.2.2.1 rfl rfl⟩

/-! ## Claim C7: retention pruning.  The chain of lemmas below establishes
that the canonical "%Y-%m-%d %H:%M:%S" strings compare lexicographically
exactly as the instants they encode, which is what the SQLite TEXT
comparison in cache_prune relies on. -/

theorem yoeNum_mono (n m : ℕ) (h : n ≤ m) :
    n - n / 1460 + n / 36524 - n / 146096 ≤ m - m / 1460 + m / 36524 - m / 146096 := by
  induction h with
  | refl => omega
  | @step k hk ih =>
      have hst : k - k / 1460 + k / 36524 - k / 146096 ≤
          (k + 1) - (k + 1) / 1460 + (k + 1) / 36524 - (k + 1) / 146096 := by omega
      omega

set_option maxRecDepth 1000000 in
theorem doeBase_step : ∀ k, k < 399 → doeBase (k + 1) = doeBase k + sdoyMax k + 1 := by decide

theorem doeBase_last : doeBase 399 + sdoyMax 399 = 146096 := by decide

set_option maxRecDepth 1000000 in
theorem yoeNum_lo : ∀ k, k < 400 →
    365 * k ≤ doeBase k - doeBase k / 1460 + doeBase k / 36524 - doeBase k / 146096 := by
  decide

set_option maxRecDepth 1000000 in
theorem yoeNum_hi : ∀ k, k < 400 →
    (doeBase k + sdoyMax k) - (doeBase k + sdoyMax k) / 1460 +
      (doeBase k + sdoyMax k) / 36524 - (doeBase k + sdoyMax k) / 146096 ≤
    365 * k + 364 := by
  decide

theorem doe_bracket : ∀ doe : ℕ, doe < 146097 →
    ∃ k, k < 400 ∧ doeBase k ≤ doe ∧ doe ≤ doeBase k + sdoyMax k := by
  intro doe
  induction doe with
  | zero => exact fun _ => ⟨0, by decide, by decide, by decide⟩
  | succ n ih =>
      intro hlt
      obtain ⟨k, hk, hlo, hhi⟩ := ih (by omega)
      rcases Nat.lt_or_ge n (doeBase k + sdoyMax k) with hn | hn
      · exact ⟨k, hk, by omega, by omega⟩
      · rcases Nat.lt_or_ge k 399 with hk399 | hk399
        · have hstep := doeBase_step k hk399
          exact ⟨k + 1, by omega, by omega, by omega⟩
        · have hk' : k = 399 := by omega
          subst hk'
          have := doeBase_last
          omega

theorem yoeFromDoe_eq (doe k : ℕ) (hk : k < 400) (hlo : doeBase k ≤ doe)
    (hhi : doe ≤ doeBase k + sdoyMax k) : yoeFromDoe doe = k := by
  unfold yoeFromDoe
  have h1 := yoeNum_lo k hk
  have h2 := yoeNum_hi k hk
  have hm1 := yoeNum_mono (doeBase k) doe hlo
  have hm2 := yoeNum_mono doe (doeBase k + sdoyMax k) hhi
  omega

theorem doeBase_lt : ∀ j k : ℕ, j < k → k ≤ 399 → doeBase j + sdoyMax j < doeBase k := by
  intro j k
  induction k with
  | zero => omega
  | succ k ih =>
      intro hj hk
      rcases Nat.lt_or_ge j k with h | h
      · have h1 := ih h (by omega)
        have hstep := doeBase_step k (by omega)
        omega
      · have hjk : j = k := by omega
        subst hjk
        have hstep := doeBase_step j (by omega)
        omega

theorem sdoyMax_le (k : ℕ) : sdoyMax k ≤ 365 := by
  unfold sdoyMax
  split <;> omega

theorem sdoy_month_bounds (s : ℕ) (h : s ≤ 365) :
    (5 * s + 2) / 153 ≤ 11 ∧
    (153 * ((5 * s + 2) / 153) + 2) / 5 ≤ s ∧
    s - (153 * ((5 * s + 2) / 153) + 2) / 5 ≤ 30 := by
  omega

theorem sdoy_month_lex (s1 s2 : ℕ) (h : s1 < s2) :
    (5 * s1 + 2) / 153 < (5 * s2 + 2) / 153 ∨
    ((5 * s1 + 2) / 153 = (5 * s2 + 2) / 153 ∧
      s1 - (153 * ((5 * s1 + 2) / 153) + 2) / 5 <
        s2 - (153 * ((5 * s2 + 2) / 153) + 2) / 5) := by
  omega

theorem civilFromDays_lex (a b : ℕ) (h : a < b) :
    (civilFromDays a).1 < (civilFromDays b).1 ∨
    ((civilFromDays a).1 = (civilFromDays b).1 ∧
     ((civilFromDays a).2.1 < (civilFromDays b).2.1 ∨
      ((civilFromDays a).2.1 = (civilFromDays b).2.1 ∧
       (civilFromDays a).2.2 < (civilFromDays b).2.2))) := by
  have hmod1 : (a + 719468) % 146097 < 146097 := Nat.mod_lt _ (by norm_num)
  have hmod2 : (b + 719468) % 146097 < 146097 := Nat.mod_lt _ (by norm_num)
  obtain ⟨k1, hk1, lo1, hi1⟩ := doe_bracket _ hmod1
  obtain ⟨k2, hk2, lo2, hi2⟩ := doe_bracket _ hmod2
  unfold civilFromDays
  dsimp only
  rw [yoeFromDoe_eq _ k1 hk1 lo1 hi1, yoeFromDoe_eq _ k2 hk2 lo2 hi2]
  have hsd1 : (a + 719468) % 146097 - doeBase k1 ≤ 365 := by
    have := sdoyMax_le k1
    omega
  have hsd2 : (b + 719468) % 146097 - doeBase k2 ≤ 365 := by
    have := sdoyMax_le k2
    omega
  have hmb1 := sdoy_month_bounds ((a + 719468) % 146097 - doeBase k1) hsd1
  have hmb2 := sdoy_month_bounds ((b + 719468) % 146097 - doeBase k2) hsd2
  rcases Nat.lt_or_ge ((a + 719468) / 146097) ((b + 719468) / 146097) with hera | hera
  · have hsy : (a + 719468) / 146097 * 400 + k1 <
        (b + 719468) / 146097 * 400 + k2 := by omega
    split_ifs <;> omega
  · have heraeq : (a + 719468) / 146097 = (b + 719468) / 146097 := by
      have := Nat.div_le_div_right (c := 146097) (show a + 719468 ≤ b + 719468 by omega)
      omega
    have hdoelt : (a + 719468) % 146097 < (b + 719468) % 146097 := by omega
    have hkle : k1 ≤ k2 := by
      by_contra hcon
      have := doeBase_lt k2 k1 (by omega) (by omega)
      omega
    rcases Nat.lt_or_ge k1 k2 with hkk | hkk
    · have hsy : (a + 719468) / 146097 * 400 + k1 <
          (b + 719468) / 146097 * 400 + k2 := by omega
      split_ifs <;> omega
    · have hkeq : k1 = k2 := by omega
      subst hkeq
      have hslt : (a + 719468) % 146097 - doeBase k1 <
          (b + 719468) % 146097 - doeBase k1 := by omega
      rcases sdoy_month_lex _ _ hslt with hm | ⟨hmeq, hd⟩
      · split_ifs <;> omega
      · split_ifs <;> omega

theorem civilFromDays_mid (n : ℕ) :
    1 ≤ (civilFromDays n).2.1 ∧ (civilFromDays n).2.1 ≤ 12 ∧
    1 ≤ (civilFromDays n).2.2 ∧ (civilFromDays n).2.2 ≤ 31 := by
  have hmod1 : (n + 719468) % 146097 < 146097 := Nat.mod_lt _ (by norm_num)
  obtain ⟨k1, hk1, lo1, hi1⟩ := doe_bracket _ hmod1
  unfold civilFromDays
  dsimp only
  rw [yoeFromDoe_eq _ k1 hk1 lo1 hi1]
  have hsd1 : (n + 719468) % 146097 - doeBase k1 ≤ 365 := by
    have := sdoyMax_le k1
    omega
  have hmb1 := sdoy_month_bounds ((n + 719468) % 146097 - doeBase k1) hsd1
  split_ifs <;> omega

theorem civilFromDays_year (n : ℕ) (h : n ≤ 2932896) :
    1970 ≤ (civilFromDays n).1 ∧ (civilFromDays n).1 ≤ 9999 := by
  constructor
  · rcases Nat.eq_zero_or_pos n with h0 | h0
    · subst h0
      decide
    · have hx := civilFromDays_lex 0 n h0
      rw [show civilFromDays 0 = (1970, 1, 1) from by decide] at hx
      norm_num at hx
      rcases hx with hlt | ⟨heq, _⟩ <;> omega
  · rcases Nat.lt_or_ge n 2932896 with hn | hn
    · have hx := civilFromDays_lex n 2932896 hn
      rw [show civilFromDays 2932896 = (9999, 12, 31) from by decide] at hx
      norm_num at hx
      rcases hx with hlt | ⟨heq, _⟩ <;> omega
    · have hn2 : n = 2932896 := by omega
      subst hn2
      decide

theorem strLt_irrefl (s : List Char) : strLt s s = false := by
  induction s with
  | nil => rfl
  | cons c cs ih => simp [strLt, ih]

theorem strLt_asymm (a b : List Char) (h : strLt a b = true) : strLt b a = false := by
  induction a generalizing b with
  | nil =>
      cases b with
      | nil => simp [strLt] at h
      | cons y ys => rfl
  | cons x xs ih =>
      cases b with
      | nil => simp [strLt] at h
      | cons y ys =>
          by_cases h1 : x.toNat < y.toNat
          · simp [strLt, h1, Nat.lt_asymm h1, Nat.ne_of_gt h1]
          · by_cases h2 : y.toNat < x.toNat
            · simp [strLt, h1, h2] at h
            · have hxy : x.toNat = y.toNat := by omega
              simp [strLt, h1, h2, hxy] at h ⊢
              exact ih ys h

theorem char_toNat_inj (a b : Char) (h : a.toNat = b.toNat) : a = b :=
  Char.eq_of_val_eq (UInt32.ext h)

theorem strLt_append (xs ys : List Char) (h : xs.length = ys.length) (as bs : List Char) :
    strLt (xs ++ as) (ys ++ bs) = true ↔
      (strLt xs ys = true ∨ (xs = ys ∧ strLt as bs = true)) := by
  induction xs generalizing ys with
  | nil =>
      cases ys with
      | nil => simp [strLt]
      | cons y yt => simp at h
  | cons x xt ih =>
      cases ys with
      | nil => simp at h
      | cons y yt =>
          simp only [List.length_cons, Nat.succ.injEq] at h
          by_cases h1 : x.toNat < y.toNat
          · have hne : x ≠ y := fun hc => by subst hc; omega
            simp [strLt, h1, hne]
          · by_cases h2 : y.toNat < x.toNat
            · have hne : x ≠ y := fun hc => by subst hc; omega
              simp [strLt, h1, h2, hne]
            · have hxy : x = y := char_toNat_inj x y (by omega)
              subst hxy
              have hred1 : strLt ((x :: xt) ++ as) ((x :: yt) ++ bs) =
                  strLt (xt ++ as) (yt ++ bs) := by
                simp [strLt]
              have hred2 : strLt (x :: xt) (x :: yt) = strLt xt yt := by
                simp [strLt]
              rw [hred1, hred2, ih yt h]
              simp [List.cons.injEq]

theorem strLt_cons (c : Char) (a b : List Char) : strLt (c :: a) (c :: b) = strLt a b := by
  simp [strLt]

set_option maxRecDepth 1000000 in
theorem fmt2_lt : ∀ a, a < 100 → ∀ b, b < 100 →
    (strLt (fmt2 a) (fmt2 b) = true ↔ a < b) := by
  decide

set_option maxRecDepth 1000000 in
theorem fmt2_inj : ∀ a, a < 100 → ∀ b, b < 100 → (fmt2 a = fmt2 b ↔ a = b) := by
  decide

theorem fmt4_lt (a b : ℕ) (ha : a < 10000) (hb : b < 10000) :
    strLt (fmt4 a) (fmt4 b) = true ↔ a < b := by
  unfold fmt4
  rw [strLt_append (fmt2 (a / 100 % 100)) (fmt2 (b / 100 % 100)) rfl]
  rw [fmt2_lt _ (by omega) _ (by omega), fmt2_lt _ (by omega) _ (by omega),
    fmt2_inj _ (by omega) _ (by omega)]
  omega

theorem fmt4_inj (a b : ℕ) (ha : a < 10000) (hb : b < 10000) :
    fmt4 a = fmt4 b ↔ a = b := by
  unfold fmt4
  constructor
  · intro hx
    obtain ⟨h1, h2⟩ := List.append_inj hx rfl
    rw [fmt2_inj _ (by omega) _ (by omega)] at h1
    rw [fmt2_inj _ (by omega) _ (by omega)] at h2
    omega
  · intro hx
    rw [hx]

theorem fmtFields_lt (y1 mo1 d1 h1 mi1 s1 y2 mo2 d2 h2 mi2 s2 : ℕ)
    (hy1 : y1 < 10000) (hy2 : y2 < 10000) (hmo1 : mo1 < 100) (hmo2 : mo2 < 100)
    (hd1 : d1 < 100) (hd2 : d2 < 100) (hh1 : h1 < 100) (hh2 : h2 < 100)
    (hmi1 : mi1 < 100) (hmi2 : mi2 < 100) (hs1 : s1 < 100) (hs2 : s2 < 100) :
    strLt
      (fmt4 y1 ++ ('-' :: (fmt2 mo1 ++ ('-' :: (fmt2 d1 ++
        (' ' :: (fmt2 h1 ++ (':' :: (fmt2 mi1 ++ (':' :: fmt2 s1))))))))))
      (fmt4 y2 ++ ('-' :: (fmt2 mo2 ++ ('-' :: (fmt2 d2 ++
        (' ' :: (fmt2 h2 ++ (':' :: (fmt2 mi2 ++ (':' :: fmt2 s2)))))))))) = true ↔
    (y1 < y2 ∨ (y1 = y2 ∧ (mo1 < mo2 ∨ (mo1 = mo2 ∧ (d1 < d2 ∨ (d1 = d2 ∧
      (h1 < h2 ∨ (h1 = h2 ∧ (mi1 < mi2 ∨ (mi1 = mi2 ∧ s1 < s2)))))))))) := by
  rw [strLt_append (fmt4 y1) (fmt4 y2) rfl, fmt4_lt y1 y2 hy1 hy2, fmt4_inj y1 y2 hy1 hy2,
    strLt_cons,
    strLt_append (fmt2 mo1) (fmt2 mo2) rfl, fmt2_lt _ hmo1 _ hmo2, fmt2_inj _ hmo1 _ hmo2,
    strLt_cons,
    strLt_append (fmt2 d1) (fmt2 d2) rfl, fmt2_lt _ hd1 _ hd2, fmt2_inj _ hd1 _ hd2,
    strLt_cons,
    strLt_append (fmt2 h1) (fmt2 h2) rfl, fmt2_lt _ hh1 _ hh2, fmt2_inj _ hh1 _ hh2,
    strLt_cons,
    strLt_append (fmt2 mi1) (fmt2 mi2) rfl, fmt2_lt _ hmi1 _ hmi2, fmt2_inj _ hmi1 _ hmi2,
    strLt_cons,
    fmt2_lt _ hs1 _ hs2]

theorem fmt_ts_lt_of_lt (t u : ℤ) (ht : validTs t) (hu : validTs u) (h : t < u) :
    strLt (fmt_ts t) (fmt_ts u) = true := by
  obtain ⟨ht0, htm⟩ := ht
  obtain ⟨hu0, hum⟩ := hu
  have hnt : t.toNat < u.toNat := by omega
  have hdt : t.toNat / 86400 ≤ 2932896 := by omega
  have hdu : u.toNat / 86400 ≤ 2932896 := by omega
  have hyt := civilFromDays_year (t.toNat / 86400) hdt
  have hyu := civilFromDays_year (u.toNat / 86400) hdu
  have hmt := civilFromDays_mid (t.toNat / 86400)
  have hmu := civilFromDays_mid (u.toNat / 86400)
  unfold fmt_ts fieldsOfSecs
  dsimp only
  rw [fmtFields_lt _ _ _ _ _ _ _ _ _ _ _ _
    (by omega) (by omega) (by omega) (by omega) (by omega) (by omega)
    (by omega) (by omega) (by omega) (by omega) (by omega) (by omega)]
  rcases Nat.lt_or_ge (t.toNat / 86400) (u.toNat / 86400) with hd | hd
  · rcases civilFromDays_lex _ _ hd with hx | ⟨he1, hx | ⟨he2, hx⟩⟩
    · exact Or.inl hx
    · exact Or.inr ⟨he1, Or.inl hx⟩
    · exact Or.inr ⟨he1, Or.inr ⟨he2, Or.inl hx⟩⟩
  · have hdeq : t.toNat / 86400 = u.toNat / 86400 := by omega
    rw [hdeq]
    refine Or.inr ⟨rfl, Or.inr ⟨rfl, Or.inr ⟨rfl, ?_⟩⟩⟩
    omega

theorem fmt_ts_lt_iff (t u : ℤ) (ht : validTs t) (hu : validTs u) :
    strLt (fmt_ts t) (fmt_ts u) = true ↔ t < u := by
  constructor
  · intro hx
    by_contra hc
    rcases eq_or_lt_of_le (not_lt.mp hc) with he | hlt
    · rw [he] at hx
      rw [strLt_irrefl] at hx
      exact Bool.noConfusion hx
    · have := fmt_ts_lt_of_lt u t hu ht hlt
      have := strLt_asymm _ _ this
      rw [this] at hx
      exact Bool.noConfusion hx
  · exact fmt_ts_lt_of_lt t u ht hu

/-- Claim C7: cache_prune with the 2-day retention deletes exactly the
rows whose created_at instant is older than now minus 2 days — the TTL
plays no part — and leaves every younger row in place.  The hypothesis
fixes the row's created_at to the canonical string cache_put writes for
an instant t in the strftime-representable range. -/
theorem cache_prune_retention (store : List CacheRow) (now t : ℤ) (row : CacheRow)
    (hmem : row ∈ store) (hca : row.created_at = fmt_ts t)
    (hvt : validTs t) (hvc : validTs (now - CACHE_RETENTION_DAYS * 86400)) :
    row ∈ cache_prune store now ↔ now - t ≤ CACHE_RETENTION_DAYS * 86400 := by
  have hcmp := fmt_ts_lt_iff t (now - CACHE_RETENTION_DAYS * 86400) hvt hvc
  unfold cache_prune
  rw [List.mem_filter, hca]
  constructor
  · rintro ⟨_, hb⟩
    rw [Bool.not_eq_true'] at hb
    have hnl : ¬ (t < now - CACHE_RETENTION_DAYS * 86400) := by
      intro hc
      rw [← hcmp] at hc
      rw [hb] at hc
      exact Bool.noConfusion hc
    omega
  · intro hle
    refine ⟨hmem, ?_⟩
    rw [Bool.not_eq_true']
    rcases Bool.eq_false_or_eq_true
        (strLt (fmt_ts t) (fmt_ts (now - CACHE_RETENTION_DAYS * 86400))) with hx | hx
    · have := hcmp.mp hx
      omega
    · exact hx

/-- Witness for the Claim C7 theorem: with now = UTC second 1750000000, a
row created 3 days earlier is pruned while a row created 1 day earlier
survives. -/
theorem cache_prune_retention_witness :
    (⟨⟨"a", "a", "a", "a", "a", "a"⟩, "h3", fmt_ts 1749740800⟩ : CacheRow) ∉
      cache_prune
        [⟨⟨"a", "a", "a", "a", "a", "a"⟩, "h3", fmt_ts 1749740800⟩,
         ⟨⟨"b", "b", "b", "b", "b", "b"⟩, "h1", fmt_ts 1749913600⟩] 1750000000 ∧
    (⟨⟨"b", "b", "b", "b", "b", "b"⟩, "h1", fmt_ts 1749913600⟩ : CacheRow) ∈
      cache_prune
        [⟨⟨"a", "a", "a", "a", "a", "a"⟩, "h3", fmt_ts 1749740800⟩,
         ⟨⟨"b", "b", "b", "b", "b", "b"⟩, "h1", fmt_ts 1749913600⟩] 1750000000 := by
  constructor
  · intro hn
    exact absurd
      ((cache_prune_retention
        [⟨⟨"a", "a", "a", "a", "a", "a"⟩, "h3", fmt_ts 1749740800⟩,
         ⟨⟨"b", "b", "b", "b", "b", "b"⟩, "h1", fmt_ts 1749913600⟩]
        1750000000 1749740800
        ⟨⟨"a", "a", "a", "a", "a", "a"⟩, "h3", fmt_ts 1749740800⟩
        (by decide) rfl ⟨by decide, by decide⟩ ⟨by decide, by decide⟩).mp hn)
      (by decide)
  · exact (cache_prune_retention
      [⟨⟨"a", "a", "a", "a", "a", "a"⟩, "h3", fmt_ts 1749740800⟩,
       ⟨⟨"b", "b", "b", "b", "b", "b"⟩, "h1", fmt_ts 1749913600⟩]
      1750000000 1749913600
      ⟨⟨"b", "b", "b", "b", "b", "b"⟩, "h1", fmt_ts 1749913600⟩
      (by decide) rfl ⟨by decide, by decide⟩ ⟨by decide, by decide⟩).mpr (by decide)

/-! ## Claim C4: time index and sentinel cells -/

theorem alGet_insert_self {κ : Type} [DecidableEq κ] {α : Type}
    (m : List (κ × α)) (k : κ) (v : α) : alGet (alInsert m k v) k = Option.some v := by
  induction m with
  | nil => simp [alInsert, alGet, List.find?]
  | cons e rest ih =>
      by_cases h : e.1 = k
      · simp [alInsert, h, alGet, List.find?]
      · simp only [alInsert, if_neg h]
        simp only [alGet, List.find?] at ih ⊢
        simp [h, ih]

theorem alGet_insert_ne {κ : Type} [DecidableEq κ] {α : Type}
    (m : List (κ × α)) (k : κ) (v : α) (k2 : κ) (h : k2 ≠ k) :
    alGet (alInsert m k v) k2 = alGet m k2 := by
  induction m with
  | nil => simp [alInsert, alGet, List.find?, Ne.symm h]
  | cons e rest ih =>
      by_cases he : e.1 = k
      · simp only [alInsert, if_pos he, alGet, List.find?, he,
          decide_eq_false (Ne.symm h)]
      · simp only [alInsert, if_neg he]
        by_cases he2 : e.1 = k2
        · simp [alGet, List.find?, he2]
        · simp only [alGet, List.find?, decide_eq_false he2]
          exact ih

theorem contains_iff_mem (l : List ℕ) (a : ℕ) : l.contains a = true ↔ a ∈ l := by
  constructor
  · exact fun h => List.mem_of_elem_eq_true h
  · exact fun h => List.elem_eq_true_of_mem h

theorem placeCells_ok (target : ℤ) (samples : List (Dt × PyVal × PyVal × PyVal))
    (st : LoopState) (cells : List (ℕ × Cell)) (st2 : LoopState)
    (cells2 : List (ℕ × Cell))
    (hok : placeCells target samples st cells = Except.ok (st2, cells2)) :
    (∀ h : ℕ, h ∈ st2.seen ↔
      (h ∈ st.seen ∨ ∃ x ∈ samples, x.1.day = target ∧ x.1.hour = h)) ∧
    ((st.seen = st.time_index.map (fun t => t.hour) ∧ st.seen.Nodup ∧
        (∀ t ∈ st.time_index, t.day = target ∧ t.minute = 0)) →
      (∀ x ∈ samples, x.1.day = target → x.1.minute = 0) →
      (st2.seen = st2.time_index.map (fun t => t.hour) ∧ st2.seen.Nodup ∧
        (∀ t ∈ st2.time_index, t.day = target ∧ t.minute = 0))) ∧
    (∀ hk : ℕ, alGet cells2 hk ≠ Option.none →
      alGet cells hk ≠ Option.none ∨
        ∃ x ∈ samples, x.1.day = target ∧ x.1.hour = hk) := by
  induction samples generalizing st cells with
  | nil =>
      simp only [placeCells] at hok
      obtain ⟨hst, hcells⟩ := Prod.mk.injEq .. ▸ Except.ok.inj hok
      subst hst
      subst hcells
      refine ⟨fun h => by simp, fun hi _ => hi, fun hk hne => Or.inl hne⟩
  | cons x rest ih =>
      obtain ⟨t, pr, pop, cc⟩ := x
      by_cases hday : t.day ≠ target
      · simp only [placeCells, if_pos hday] at hok
        obtain ⟨ha, hb, hc⟩ := ih st cells hok
        refine ⟨?_, ?_, ?_⟩
        · intro h
          rw [ha h]
          constructor
          · rintro (h1 | ⟨y, hy, hd, hh⟩)
            · exact Or.inl h1
            · exact Or.inr ⟨y, List.mem_cons_of_mem _ hy, hd, hh⟩
          · rintro (h1 | ⟨y, hy, hd, hh⟩)
            · exact Or.inl h1
            · rcases List.mem_cons.mp hy with rfl | hy2
              · exact absurd hd hday
              · exact Or.inr ⟨y, hy2, hd, hh⟩
        · intro hi hm
          exact hb hi (fun y hy hd => hm y (List.mem_cons_of_mem _ hy) hd)
        · intro hk hne
          rcases hc hk hne with h1 | ⟨y, hy, hd, hh⟩
          · exact Or.inl h1
          · exact Or.inr ⟨y, List.mem_cons_of_mem _ hy, hd, hh⟩
      · have hdayeq : t.day = target := by omega
        simp only [placeCells, if_neg hday] at hok
        rcases hio : int_or_zero pop with e | popi
        · rw [hio] at hok
          exact Except.noConfusion hok
        · rw [hio] at hok
          obtain ⟨ha, hb, hc⟩ := ih _ _ hok
          by_cases hcont : st.seen.contains t.hour = true
          · rw [if_pos hcont] at ha hb
            have hmem : t.hour ∈ st.seen := (contains_iff_mem _ _).mp hcont
            refine ⟨?_, ?_, ?_⟩
            · intro h
              rw [ha h]
              constructor
              · rintro (h1 | ⟨y, hy, hd, hh⟩)
                · exact Or.inl h1
                · exact Or.inr ⟨y, List.mem_cons_of_mem _ hy, hd, hh⟩
              · rintro (h1 | ⟨y, hy, hd, hh⟩)
                · exact Or.inl h1
                · rcases List.mem_cons.mp hy with rfl | hy2
                  · exact Or.inl ((show t.hour = h from hh) ▸ hmem)
                  · exact Or.inr ⟨y, hy2, hd, hh⟩
            · intro hi hm
              exact hb hi (fun y hy hd => hm y (List.mem_cons_of_mem _ hy) hd)
            · intro hk hne
              rcases hc hk hne with h1 | ⟨y, hy, hd, hh⟩
              · by_cases hkh : hk = t.hour
                · exact Or.inr ⟨(t, pr, pop, cc), List.mem_cons_self _ _, hdayeq, hkh.symm⟩
                · rw [alGet_insert_ne cells t.hour _ hk hkh] at h1
                  exact Or.inl h1
              · exact Or.inr ⟨y, List.mem_cons_of_mem _ hy, hd, hh⟩
          · rw [if_neg hcont] at ha hb
            have hmem : t.hour ∉ st.seen := fun hm =>
              hcont ((contains_iff_mem _ _).mpr hm)
            refine ⟨?_, ?_, ?_⟩
            · intro h
              rw [ha h]
              simp only [List.mem_append, List.mem_singleton]
              constructor
              · rintro ((h1 | h1) | ⟨y, hy, hd, hh⟩)
                · exact Or.inl h1
                · exact Or.inr ⟨(t, pr, pop, cc), List.mem_cons_self _ _, hdayeq, h1.symm⟩
                · exact Or.inr ⟨y, List.mem_cons_of_mem _ hy, hd, hh⟩
              · rintro (h1 | ⟨y, hy, hd, hh⟩)
                · exact Or.inl (Or.inl h1)
                · rcases List.mem_cons.mp hy with rfl | hy2
                  · exact Or.inl (Or.inr hh.symm)
                  · exact Or.inr ⟨y, hy2, hd, hh⟩
            · intro hi hm
              obtain ⟨hmap, hnd, hel⟩ := hi
              have htmin : t.minute = 0 :=
                hm (t, pr, pop, cc) (List.mem_cons_self _ _) hdayeq
              refine hb ⟨?_, ?_, ?_⟩ (fun y hy hd => hm y (List.mem_cons_of_mem _ hy) hd)
              · simp [hmap]
              · rw [List.nodup_append]
                refine ⟨hnd, List.nodup_singleton _, ?_⟩
                intro a ha2 hb2
                rw [List.mem_singleton] at hb2
                subst hb2
                exact hmem ha2
              · intro u hu
                rcases List.mem_append.mp hu with hu1 | hu1
                · exact hel u hu1
                · rw [List.mem_singleton] at hu1
                  subst hu1
                  exact ⟨hdayeq, htmin⟩
            · intro hk hne
              rcases hc hk hne with h1 | ⟨y, hy, hd, hh⟩
              · by_cases hkh : hk = t.hour
                · exact Or.inr ⟨(t, pr, pop, cc), List.mem_cons_self _ _, hdayeq, hkh.symm⟩
                · rw [alGet_insert_ne cells t.hour _ hk hkh] at h1
                  exact Or.inl h1
              · exact Or.inr ⟨y, List.mem_cons_of_mem _ hy, hd, hh⟩

theorem buildPlaces_ok (target : ℤ) (fetch : Place → RawHourly)
    (ps : List Place) (st : LoopState) (cmap : List (String × List (ℕ × Cell)))
    (st2 : LoopState) (cmap2 : List (String × List (ℕ × Cell)))
    (hok : (buildPlaces target fetch ps st cmap).2 = Except.ok (st2, cmap2)) :
    (∀ h : ℕ, h ∈ st2.seen ↔ (h ∈ st.seen ∨ ∃ p ∈ ps,
      ∃ x ∈ zip4 (hourly_forecast (fetch p)).time (hourly_forecast (fetch p)).precip
        (hourly_forecast (fetch p)).pop (hourly_forecast (fetch p)).cloud,
        x.1.day = target ∧ x.1.hour = h)) ∧
    ((st.seen = st.time_index.map (fun t => t.hour) ∧ st.seen.Nodup ∧
        (∀ t ∈ st.time_index, t.day = target ∧ t.minute = 0)) →
      (∀ p ∈ ps, ∀ x ∈ zip4 (hourly_forecast (fetch p)).time
          (hourly_forecast (fetch p)).precip (hourly_forecast (fetch p)).pop
          (hourly_forecast (fetch p)).cloud, x.1.day = target → x.1.minute = 0) →
      (st2.seen = st2.time_index.map (fun t => t.hour) ∧ st2.seen.Nodup ∧
        (∀ t ∈ st2.time_index, t.day = target ∧ t.minute = 0))) ∧
    (∀ lab, (∀ p ∈ ps, p.label ≠ lab) → alGet cmap2 lab = alGet cmap lab) ∧
    ((ps.map Place.label).Nodup →
      ∀ p ∈ ps, ∀ hk : ℕ,
        (¬∃ x ∈ zip4 (hourly_forecast (fetch p)).time (hourly_forecast (fetch p)).precip
          (hourly_forecast (fetch p)).pop (hourly_forecast (fetch p)).cloud,
          x.1.day = target ∧ x.1.hour = hk) →
        ∃ cells, alGet cmap2 p.label = Option.some cells ∧
          alGet cells hk = Option.none) := by
  induction ps generalizing st cmap with
  | nil =>
      simp only [buildPlaces] at hok
      obtain ⟨hst, hcm⟩ := Prod.mk.injEq .. ▸ Except.ok.inj hok
      subst hst
      subst hcm
      refine ⟨fun h => by simp, fun hi _ => hi, fun lab _ => rfl, ?_⟩
      intro _ p hp
      exact absurd hp (List.not_mem_nil p)
  | cons p rest ih =>
      simp only [buildPlaces] at hok
      rcases hpc : placeCells target
          (zip4 (hourly_forecast (fetch p)).time (hourly_forecast (fetch p)).precip
            (hourly_forecast (fetch p)).pop (hourly_forecast (fetch p)).cloud)
          st [] with e | pr
      · rw [hpc] at hok
        exact Except.noConfusion hok
      · rcases pr with ⟨stm, cells⟩
        rw [hpc] at hok
        dsimp only at hok
        obtain ⟨pa, pb, pc⟩ := placeCells_ok target _ st [] stm cells hpc
        obtain ⟨ba, bb, bc, bd⟩ := ih stm (alInsert cmap p.label cells) hok
        refine ⟨?_, ?_, ?_, ?_⟩
        · intro h
          rw [ba h, pa h]
          constructor
          · rintro ((h1 | ⟨x, hx, hd, hh⟩) | ⟨q, hq, x, hx, hd, hh⟩)
            · exact Or.inl h1
            · exact Or.inr ⟨p, List.mem_cons_self _ _, x, hx, hd, hh⟩
            · exact Or.inr ⟨q, List.mem_cons_of_mem _ hq, x, hx, hd, hh⟩
          · rintro (h1 | ⟨q, hq, x, hx, hd, hh⟩)
            · exact Or.inl (Or.inl h1)
            · rcases List.mem_cons.mp hq with rfl | hq2
              · exact Or.inl (Or.inr ⟨x, hx, hd, hh⟩)
              · exact Or.inr ⟨q, hq2, x, hx, hd, hh⟩
        · intro hi hm
          exact bb (pb hi (hm p (List.mem_cons_self _ _)))
            (fun q hq => hm q (List.mem_cons_of_mem _ hq))
        · intro lab hne
          rw [bc lab (fun q hq => hne q (List.mem_cons_of_mem _ hq))]
          exact alGet_insert_ne cmap p.label cells lab
            (Ne.symm (hne p (List.mem_cons_self _ _)))
        · intro hnd q hq hk hno
          rw [List.map_cons, List.nodup_cons] at hnd
          rcases List.mem_cons.mp hq with rfl | hq2
          · have hfr : alGet cmap2 q.label = alGet (alInsert cmap q.label cells) q.label := by
              apply bc
              intro r hr hc
              exact hnd.1 (hc ▸ List.mem_map_of_mem Place.label hr)
            rw [hfr, alGet_insert_self]
            refine ⟨cells, rfl, ?_⟩
            rcases Option.eq_none_or_eq_some (alGet cells hk) with hcn | ⟨v, hcv⟩
            · exact hcn
            · rcases pc hk (by rw [hcv]; exact fun hc => Option.noConfusion hc) with h1 | h2
              · exact absurd rfl h1
              · exact absurd h2 hno
          · exact bd hnd.2 q hq2 hk hno

theorem dt_ext (a b : Dt) (h1 : a.day = b.day) (h2 : a.hour = b.hour)
    (h3 : a.minute = b.minute) : a = b := by
  cases a
  cases b
  simp_all

/-- Claim C4: for every set of locations with (possibly partially
overlapping) hourly on-the-hour samples for the target date, the resulting
time index (after time_index.sort()) is the duplicate-free,
strictly-ascending union of the hour-truncated timestamps retained across
all locations: an instant is in the sorted index exactly when it lies on
the target date at minute zero and some location has a sample at that
hour of the target date; and every (location, hour) pair with no matching
sample renders as the sentinel "no data" cell (icon —, precipitation 0,
probability 0) rather than raising an error, including labels of no
fetched location. -/
theorem time_index_claim (target : ℤ) (fetch : Place → RawHourly)
    (places : List Place) (st : LoopState)
    (cmap : List (String × List (ℕ × Cell)))
    (hok : (buildPlaces target fetch places ⟨[], []⟩ []).2 = Except.ok (st, cmap))
    (hmin : ∀ p ∈ places, ∀ x ∈ zip4 (hourly_forecast (fetch p)).time
        (hourly_forecast (fetch p)).precip (hourly_forecast (fetch p)).pop
        (hourly_forecast (fetch p)).cloud, x.1.day = target → x.1.minute = 0)
    (hlab : (places.map Place.label).Nodup) :
    List.Sorted dtLt (sortTimeIndex st.time_index) ∧
    (sortTimeIndex st.time_index).Nodup ∧
    (∀ t : Dt, t ∈ sortTimeIndex st.time_index ↔
      (t.day = target ∧ t.minute = 0 ∧ ∃ p ∈ places,
        ∃ x ∈ zip4 (hourly_forecast (fetch p)).time (hourly_forecast (fetch p)).precip
          (hourly_forecast (fetch p)).pop (hourly_forecast (fetch p)).cloud,
          x.1.day = target ∧ x.1.hour = t.hour)) ∧
    (∀ p ∈ places, ∀ hk : ℕ,
      (¬∃ x ∈ zip4 (hourly_forecast (fetch p)).time (hourly_forecast (fetch p)).precip
        (hourly_forecast (fetch p)).pop (hourly_forecast (fetch p)).cloud,
        x.1.day = target ∧ x.1.hour = hk) →
      cell_for cmap p.label hk = sentinelCell) ∧
    (∀ lab : String, (∀ p ∈ places, p.label ≠ lab) →
      ∀ hk : ℕ, cell_for cmap lab hk = sentinelCell) := by
  obtain ⟨ba, bb, bc, bd⟩ :=
    buildPlaces_ok target fetch places ⟨[], []⟩ [] st cmap hok
  obtain ⟨hseen, hsnd, hti⟩ :=
    bb ⟨rfl, List.nodup_nil, fun t ht => absurd ht (List.not_mem_nil t)⟩ hmin
  have hperm : List.Perm (sortTimeIndex st.time_index) st.time_index :=
    List.perm_insertionSort dtLe st.time_index
  have htind : st.time_index.Nodup := (hseen ▸ hsnd).of_map _
  have hnds : (sortTimeIndex st.time_index).Nodup := hperm.nodup_iff.mpr htind
  have hsorted : List.Sorted dtLe (sortTimeIndex st.time_index) :=
    List.sorted_insertionSort dtLe st.time_index
  refine ⟨?_, hnds, ?_, ?_, ?_⟩
  · exact List.Pairwise.imp (fun h => h) (hsorted.and hnds)
  · intro t
    rw [hperm.mem_iff]
    constructor
    · intro ht
      obtain ⟨hd, hm⟩ := hti t ht
      have hh : t.hour ∈ st.seen := by
        rw [hseen]; exact List.mem_map_of_mem _ ht
      rcases (ba t.hour).mp hh with h0 | hx
      · exact absurd h0 (List.not_mem_nil _)
      · exact ⟨hd, hm, hx⟩
    · rintro ⟨hd, hm, p, hp, x, hx, hxd, hxh⟩
      have hh : t.hour ∈ st.seen :=
        (ba t.hour).mpr (Or.inr ⟨p, hp, x, hx, hxd, hxh⟩)
      rw [hseen] at hh
      obtain ⟨u, hu, huh⟩ := List.mem_map.mp hh
      obtain ⟨hud, hum⟩ := hti u hu
      have h1 : t.day = u.day := by rw [hd, hud]
      have h3 : t.minute = u.minute := by rw [hm, hum]
      exact (dt_ext t u h1 huh.symm h3) ▸ hu
  · intro p hp hk hno
    obtain ⟨cells, hc1, hc2⟩ := bd hlab p hp hk hno
    unfold cell_for
    rw [hc1]
    show (alGet cells hk).getD sentinelCell = sentinelCell
    rw [hc2]
    rfl
  · intro lab hne hk
    unfold cell_for
    rw [bc lab hne]
    rfl

/-- Witness for the Claim C4 theorem on a concrete two-place environment:
place A samples 09:00 and 07:00 of day 0 in that order, place B overlaps
at 09:00; the sorted index is strictly ascending and duplicate-free,
07:00 is a member, and both the missing hour 08:00 of place A and an
unknown label render as the sentinel cell. -/
theorem time_index_claim_witness :
    (buildPlaces 0 c4_fetch c4_places ⟨[], []⟩ []).2 =
      Except.ok (⟨[9, 7], [⟨0, 9, 0⟩, ⟨0, 7, 0⟩]⟩, c4_cmap) ∧
    List.Sorted dtLt (sortTimeIndex [⟨0, 9, 0⟩, ⟨0, 7, 0⟩]) ∧
    ((⟨0, 7, 0⟩ : Dt) ∈ sortTimeIndex [⟨0, 9, 0⟩, ⟨0, 7, 0⟩]) ∧
    cell_for c4_cmap "A" 8 = sentinelCell ∧
    cell_for c4_cmap "C" 9 = sentinelCell := by
  have h := time_index_claim 0 c4_fetch c4_places
    ⟨[9, 7], [⟨0, 9, 0⟩, ⟨0, 7, 0⟩]⟩ c4_cmap rfl (by decide) (by decide)
  refine ⟨rfl, h.1, ?_, ?_, ?_⟩
  · exact (h.2.2.1 ⟨0, 7, 0⟩).mpr ⟨rfl, rfl, Place.mk "A" "A" 0 0 "",
      by decide, (⟨0, 7, 0⟩, PyVal.num 0, PyVal.num 0, PyVal.num 0),
      by decide, rfl, rfl⟩
  · exact h.2.2.2.1 (Place.mk "A" "A" 0 0 "") (by decide) 8 (by decide)
  · exact h.2.2.2.2 "C" (by decide) 9
